import Mathlib

/-!
Shallow embedding of the Statix fleet-telemetry server core
(`apps/api/src`: store, routes, ingest handler, realtime fan-out, prestart)
together with the shared zod schemas (`packages/shared`), and proofs of the
behavioural properties stated in the specification.

Conventions of the embedding:
* A JavaScript `number` is modelled by `JSNumber`: a finite rational, an
  infinity, or NaN.  Where the source converts through `BigInt`/`Math.trunc`
  the model uses `Int` with the same truncation.
* Database `DateTime` values are epoch milliseconds (`Int`).
* Cryptographic primitives (`createHash("sha256")`, `argon2.verify`) and
  random token generation (`randomBytes`) live outside the repository; they
  are threaded through as explicit function/value parameters (`hashT`,
  `verify`, minted plaintexts), never invented by the model.
* Each Prisma operation becomes a pure function on an explicit `DB` value;
  a failing transaction is `none` (no partial write is representable).
-/

/-- Model of a JavaScript number: a finite rational or one of the
IEEE special values (`Infinity`, `-Infinity`, `NaN`). -/
inductive JSNumber where
  | finite (q : ℚ)
  | posInf
  | negInf
  | nan
deriving DecidableEq, Repr

namespace JSNumber

/-- Translation of `Number.isFinite`. -/
def isFinite : JSNumber → Bool
  | .finite _ => true
  | _ => false

/-- Comparison `x >= c` against a rational bound; false on NaN, as in JS. -/
def geQ (x : JSNumber) (c : ℚ) : Bool :=
  match x with
  | .finite q => decide (c ≤ q)
  | .posInf => true
  | .negInf => false
  | .nan => false

/-- Comparison `x <= c` against a rational bound; false on NaN, as in JS. -/
def leQ (x : JSNumber) (c : ℚ) : Bool :=
  match x with
  | .finite q => decide (q ≤ c)
  | .posInf => false
  | .negInf => true
  | .nan => false

/-- Comparison `x > c` against a rational bound; false on NaN, as in JS. -/
def gtQ (x : JSNumber) (c : ℚ) : Bool :=
  match x with
  | .finite q => decide (c < q)
  | .posInf => true
  | .negInf => false
  | .nan => false

/-- Integrality test used by zod's `.int()` check. -/
def isInt : JSNumber → Bool
  | .finite q => decide (q.den = 1)
  | _ => false

end JSNumber

/-- Model of a parsed JSON value (the result of `JSON.parse`).  Object keys
are kept in source order; `JSON.parse` never produces duplicate keys that
matter because the last duplicate wins at parse time. -/
inductive JsValue where
  | null
  | bool (b : Bool)
  | num (n : JSNumber)
  | str (s : String)
  | arr (xs : List JsValue)
  | obj (fields : List (String × JsValue))

namespace JsValue

/-- Field lookup on a JSON object value; `none` when the receiver is not an
object or the key is absent (JS property access yielding `undefined`). -/
def get? (v : JsValue) (key : String) : Option JsValue :=
  match v with
  | .obj fields => (fields.find? (fun kv => kv.1 = key)).map (fun kv => kv.2)
  | _ => none

end JsValue

/-! ### JavaScript string primitives.
`String.prototype.split`, `trim` and `toLowerCase` are modelled over the
character list so that every definition evaluates inside the kernel. -/

/-- Split a character list on a separator character (every occurrence,
keeping empty segments — the semantics of `split` with a one-character
separator). -/
def splitOnChar (c : Char) : List Char → List (List Char)
  | [] => [[]]
  | x :: xs =>
    let rest := splitOnChar c xs
    if x = c then [] :: rest
    else
      match rest with
      | [] => [[x]]
      | r :: rs => (x :: r) :: rs

/-- Model of `str.split(sep)` for a one-character separator. -/
def jsSplit (s : String) (sep : Char) : List String :=
  (splitOnChar sep s.data).map (fun l => ⟨l⟩)

/-- Model of `str.trim()`: strip leading and trailing whitespace. -/
def jsTrim (s : String) : String :=
  ⟨((s.data.dropWhile Char.isWhitespace).reverse.dropWhile
      Char.isWhitespace).reverse⟩

/-- Model of `str.toLowerCase()` on the identifier/email alphabet. -/
def jsToLower (s : String) : String := ⟨s.data.map Char.toLower⟩

/-! ## Shared zod schemas (`packages/shared/src/index.ts`) -/

/-- Validated `MetricsPayload` (zod infers all fields as `number`; validated
values are finite, so every field is carried as a `JSNumber` that satisfies
the schema's bounds). -/
structure MetricsPayload where
  ts : JSNumber
  cpu : JSNumber
  mem_used : JSNumber
  mem_total : JSNumber
  disk_used : JSNumber
  disk_total : JSNumber
  net_rx : JSNumber
  net_tx : JSNumber
deriving DecidableEq, Repr

/-- Helper: read a field that zod's `z.number()` accepts — present, a number,
neither NaN nor infinite. -/
def getNumber (v : JsValue) (key : String) : Option JSNumber :=
  match v.get? key with
  | some (.num n) => if n.isFinite then some n else none
  | _ => none

/-- Translation of `MetricsSchema.safeParse` from `packages/shared`:
`z.object({ v: z.literal(1), ts: z.number(), cpu: z.number().min(0).max(1),
mem_used: z.number().nonnegative(), mem_total: z.number().positive(),
disk_used: z.number().nonnegative(), disk_total: z.number().positive(),
net_rx: z.number().nonnegative(), net_tx: z.number().nonnegative() })`.
Returns `some payload` exactly when validation succeeds. -/
def MetricsSchema.safeParse (v : JsValue) : Option MetricsPayload :=
  match v with
  | .obj _ => do
    let vv ← getNumber v "v"
    if vv ≠ .finite 1 then none else
    let ts ← getNumber v "ts"
    let cpu ← getNumber v "cpu"
    if ¬ (cpu.geQ 0 ∧ cpu.leQ 1) then none else
    let memUsed ← getNumber v "mem_used"
    if ¬ memUsed.geQ 0 then none else
    let memTotal ← getNumber v "mem_total"
    if ¬ memTotal.gtQ 0 then none else
    let diskUsed ← getNumber v "disk_used"
    if ¬ diskUsed.geQ 0 then none else
    let diskTotal ← getNumber v "disk_total"
    if ¬ diskTotal.gtQ 0 then none else
    let netRx ← getNumber v "net_rx"
    if ¬ netRx.geQ 0 then none else
    let netTx ← getNumber v "net_tx"
    if ¬ netTx.geQ 0 then none else
    pure ⟨ts, cpu, memUsed, memTotal, diskUsed, diskTotal, netRx, netTx⟩
  | _ => none

/-- Validated GPU entry of `SystemInfoSchema`. -/
structure GpuInfo where
  name : String
  vendor : Option String
  memoryBytes : Option JSNumber
  driverVersion : Option String
deriving DecidableEq, Repr

/-- Validated `info` object of `SystemInfoSchema`. -/
structure SystemInfoDetails where
  osPlatform : String
  osRelease : String
  osArch : String
  hostname : String
  cpuModel : String
  cpuCores : JSNumber
  memTotal : JSNumber
  agentVersion : Option String
  agentCommit : Option String
  agentBuiltAt : Option String
  gpus : List GpuInfo
deriving DecidableEq, Repr

/-- Validated `SystemInfoPayload`. -/
structure SystemInfoPayload where
  ts : JSNumber
  hash : String
  info : SystemInfoDetails
deriving DecidableEq, Repr

/-- Helper: read an optional string field (`z.string().optional()`), with a
required minimum length. -/
def getOptString (v : JsValue) (key : String) (minLen : Nat) : Option (Option String) :=
  match v.get? key with
  | none => some none
  | some (.str s) => if s.length ≥ minLen then some (some s) else none
  | some _ => none

/-- Helper: read a required string field with minimum length. -/
def getString (v : JsValue) (key : String) (minLen : Nat) : Option String :=
  match v.get? key with
  | some (.str s) => if s.length ≥ minLen then some s else none
  | _ => none

/-- Translation of the `GpuSchema` object parser. -/
def GpuSchema.safeParse (v : JsValue) : Option GpuInfo :=
  match v with
  | .obj _ => do
    let name ← getString v "name" 1
    let vendor ← getOptString v "vendor" 0
    let memoryBytes ←
      match v.get? "memoryBytes" with
      | none => some none
      | some (.num n) =>
          if n.isFinite ∧ n.isInt ∧ n.geQ 0 then some (some n) else none
      | some _ => none
    let driverVersion ← getOptString v "driverVersion" 0
    pure ⟨name, vendor, memoryBytes, driverVersion⟩
  | _ => none

/-- Translation of `SystemInfoSchema.safeParse` from `packages/shared`. -/
def SystemInfoSchema.safeParse (v : JsValue) : Option SystemInfoPayload :=
  match v with
  | .obj _ => do
    let vv ← getNumber v "v"
    if vv ≠ .finite 1 then none else
    let ts ← getNumber v "ts"
    let hash ← getString v "hash" 1
    let infoV ← v.get? "info"
    match infoV with
    | .obj _ => do
      let osPlatform ← getString infoV "osPlatform" 1
      let osRelease ← getString infoV "osRelease" 1
      let osArch ← getString infoV "osArch" 1
      let hostname ← getString infoV "hostname" 1
      let cpuModel ← getString infoV "cpuModel" 1
      let cpuCores ← getNumber infoV "cpuCores"
      if ¬ (cpuCores.isInt ∧ cpuCores.gtQ 0) then none else
      let memTotal ← getNumber infoV "memTotal"
      if ¬ memTotal.gtQ 0 then none else
      let agentVersion ← getOptString infoV "agentVersion" 1
      let agentCommit ← getOptString infoV "agentCommit" 0
      let agentBuiltAt ← getOptString infoV "agentBuiltAt" 0
      let gpusV ← infoV.get? "gpus"
      match gpusV with
      | .arr xs => do
        let gpus ← xs.mapM GpuSchema.safeParse
        pure ⟨ts, hash,
          ⟨osPlatform, osRelease, osArch, hostname, cpuModel, cpuCores,
            memTotal, agentVersion, agentCommit, agentBuiltAt, gpus⟩⟩
      | _ => none
    | _ => none
  | _ => none

/-! ## Persistent rows and the database value (`prisma/schema` tables) -/

/-- Row of the `Node` table. -/
structure NodeRow where
  id : String
  name : Option String
  lastSeenAt : Int
  createdAt : Int
  updatedAt : Int
  authTokenHash : Option String
  mqttUsername : Option String
  mqttPasswordHash : Option String
  mqttPasswordExpiresAt : Option Int
deriving DecidableEq, Repr

/-- Row of the `metrics` table (`id BIGSERIAL` is represented implicitly by
list position; only the payload columns are projected by the code). -/
structure MetricRow where
  nodeId : String
  createdAt : Int
  ts : Int
  cpu : JSNumber
  memUsed : Int
  memTotal : Int
  diskUsed : Int
  diskTotal : Int
  netRx : Int
  netTx : Int
deriving DecidableEq, Repr

/-- Row of the `node_system_info` table. -/
structure SystemInfoRow where
  nodeId : String
  hash : String
  payload : SystemInfoPayload
  reportedTs : Int
  createdAt : Int
  updatedAt : Int
deriving DecidableEq, Repr

/-- Row of the `User` table. -/
structure UserRow where
  id : String
  email : String
  emailNormalized : String
  passwordHash : Option String
  emailVerifiedAt : Option Int
  isDisabled : Bool
  failedLoginCount : Int
  lockedUntil : Option Int
  lastLoginAt : Option Int
  lastLoginIp : Option String
  displayName : Option String
deriving DecidableEq, Repr

/-- Row of the `Role` table. -/
structure RoleRow where
  id : String
  name : String
  description : Option String
deriving DecidableEq, Repr

/-- Row of the `UserRole` join table. -/
structure UserRoleRow where
  userId : String
  roleId : String
deriving DecidableEq, Repr

/-- Row of the `Permission` table. -/
structure PermissionRow where
  id : String
  code : String
  description : Option String
deriving DecidableEq, Repr

/-- Row of the `RolePermission` join table. -/
structure RolePermissionRow where
  roleId : String
  permissionId : String
deriving DecidableEq, Repr

/-- Row of the `Session` table. -/
structure SessionRow where
  id : String
  userId : String
  tokenHash : String
  createdAt : Int
  expiresAt : Int
  revokedAt : Option Int
  lastSeenAt : Option Int
  ip : Option String
  userAgent : Option String
deriving DecidableEq, Repr

/-- The `TokenType` enum. -/
inductive TokenType where
  | RESET_PASSWORD
  | VERIFY_EMAIL
  | CHANGE_EMAIL
deriving DecidableEq, Repr

/-- Row of the `AuthToken` table; `metadata` is a JSON column. -/
structure AuthTokenRow where
  id : String
  userId : String
  ttype : TokenType
  tokenHash : String
  createdAt : Int
  expiresAt : Int
  consumedAt : Option Int
  metadata : Option JsValue

/-- The persistent state: one list per table. -/
structure DB where
  nodes : List NodeRow
  metrics : List MetricRow
  systemInfos : List SystemInfoRow
  users : List UserRow
  roles : List RoleRow
  userRoles : List UserRoleRow
  permissions : List PermissionRow
  rolePermissions : List RolePermissionRow
  sessions : List SessionRow
  authTokens : List AuthTokenRow

/-- The empty database. -/
def DB.empty : DB := ⟨[], [], [], [], [], [], [], [], [], []⟩

/-! ## Store operations (`apps/api/src/store/prisma.ts`) -/

/-- Translation of `toBigInt`:
`if (!Number.isFinite(value) || value < 0) return BigInt(0);
return BigInt(Math.trunc(value));` — `Math.trunc` on a non-negative finite
number is the floor. -/
def toBigInt (value : JSNumber) : Int :=
  match value with
  | .finite q => if q.num < 0 then 0 else q.num / q.den
  | _ => 0

/-- Sanity: for a non-negative finite value the model of `Math.trunc`
agrees with the mathematical floor, and a negative or non-finite value
maps to `0`. -/
theorem toBigInt_spec (v : JSNumber) :
    (∀ q : ℚ, v = .finite q → 0 ≤ q → toBigInt v = ⌊q⌋) ∧
    ((∀ q : ℚ, v = .finite q → q < 0 → toBigInt v = 0) ∧
      (v.isFinite = false → toBigInt v = 0)) := by
  refine ⟨?_, ?_, ?_⟩
  · rintro q rfl hq
    have hnum : ¬ q.num < 0 := by
      simpa [Rat.num_nonneg] using hq
    simp [toBigInt, hnum, Rat.floor_def]
  · rintro q rfl hq
    have hnum : q.num < 0 := by
      simpa [Rat.num_neg] using hq
    simp [toBigInt, hnum]
  · intro h
    cases v with
    | finite q => simp [JSNumber.isFinite] at h
    | posInf => simp [toBigInt]
    | negInf => simp [toBigInt]
    | nan => simp [toBigInt]

namespace NodeStore

/-- Translation of `NodeStore.findById` (`prisma.node.findUnique`). -/
def findById (db : DB) (nodeId : String) : Option NodeRow :=
  db.nodes.find? (fun n => n.id = nodeId)

end NodeStore

/-- Translation of `createNode` (`prisma.node.create` with a fresh ulid):
fails (unique-constraint violation) when the id or the `authTokenHash`
already exists.  `now` supplies `createdAt`/`updatedAt`/`lastSeenAt`
defaults. -/
def createNode (db : DB) (freshId : String) (name : Option String)
    (authTokenHash : String) (now : Int) : Option (NodeRow × DB) :=
  if db.nodes.any (fun n => n.id = freshId ∨ n.authTokenHash = some authTokenHash) then
    none
  else
    let row : NodeRow :=
      ⟨freshId, name, now, now, now, some authTokenHash, none, none, none⟩
    some (row, { db with nodes := db.nodes ++ [row] })

namespace MetricStore

/-- Translation of `MetricStore.appendNodeMetric`: a single transaction that
creates one `Metric` row and updates `Node.lastSeenAt` to
`new Date(Number(toBigInt(payload.ts)))`.  When the node does not exist the
foreign key (and the `node.update`) fail, the transaction rolls back and no
write is visible: the whole call is `none`. -/
def appendNodeMetric (db : DB) (nodeId : String) (payload : MetricsPayload)
    (now : Int) : Option DB :=
  let tsValue := toBigInt payload.ts
  let observedAt := tsValue
  if db.nodes.any (fun n => n.id = nodeId) then
    let row : MetricRow :=
      ⟨nodeId, now, tsValue, payload.cpu,
        toBigInt payload.mem_used, toBigInt payload.mem_total,
        toBigInt payload.disk_used, toBigInt payload.disk_total,
        toBigInt payload.net_rx, toBigInt payload.net_tx⟩
    some { db with
      metrics := db.metrics ++ [row],
      nodes := db.nodes.map (fun n =>
        if n.id = nodeId then { n with lastSeenAt := observedAt } else n) }
  else
    none

end MetricStore

example : toBigInt (.finite (mkRat 3 2)) = 1 := by decide
example : toBigInt (.finite (mkRat (-5) 1)) = 0 := by decide
example : toBigInt .posInf = 0 := by decide
example : toBigInt .nan = 0 := by decide

/-- Update of `Node.lastSeenAt` (`prisma.node.update({ data: { lastSeenAt } })`).
The ORM timestamp bookkeeping column `updatedAt` is not modelled: the schema
file is not part of the excerpt, and the specification describes these
operations as bumping `lastSeenAt` only. -/
def touchNodeLastSeen (nodes : List NodeRow) (nodeId : String) (at_ : Int) :
    List NodeRow :=
  nodes.map (fun n => if n.id = nodeId then { n with lastSeenAt := at_ } else n)

/-- Projected metric row returned by `MetricStore.listRecentByNode`
(`Number(...)` conversions of the BigInt columns are exact in the modelled
range). -/
structure MetricDto where
  at_ : Int
  ts : Int
  cpu : JSNumber
  memUsed : Int
  memTotal : Int
  diskUsed : Int
  diskTotal : Int
  netRx : Int
  netTx : Int
deriving DecidableEq, Repr

/-- Projection of a stored row to the shape returned by `listRecentByNode`. -/
def MetricRow.toDto (r : MetricRow) : MetricDto :=
  ⟨r.createdAt, r.ts, r.cpu, r.memUsed, r.memTotal, r.diskUsed, r.diskTotal,
    r.netRx, r.netTx⟩

/-- Descending `createdAt` comparison used for `orderBy: { createdAt: "desc" }`. -/
def newestFirst (a b : MetricRow) : Bool := decide (b.createdAt ≤ a.createdAt)

/-- Translation of `MetricStore.listRecentByNode`:
`safeLimit = Math.max(1, Math.min(300, Math.trunc(limit)))`, newest
`safeLimit` rows of the node by `createdAt DESC`, then `.reverse()` and the
field projection.  `limit` arrives as an integer from the route (non-integer
query values are truncated before this point). -/
def MetricStore.listRecentByNode (db : DB) (nodeId : String) (limit : Int) :
    List MetricDto :=
  let safeLimit := max 1 (min 300 limit)
  let rows := ((db.metrics.filter (fun r => r.nodeId = nodeId)).mergeSort
      newestFirst).take safeLimit.toNat
  rows.reverse.map MetricRow.toDto

namespace SystemInfoStore

/-- Translation of `SystemInfoStore.upsertNodeSystemInfo`.
Reads the stored hash; when it equals `payload.hash` only
`Node.lastSeenAt` is bumped and `{changed: false}` is returned.  Otherwise a
transaction upserts the `node_system_info` row (hash, payload, reportedTs;
`updatedAt` is written by the upsert) and bumps `Node.lastSeenAt`.  A
missing node makes the update (or the FK on create) fail: the call throws,
modelled as `none`, and no write is visible. -/
def upsertNodeSystemInfo (db : DB) (nodeId : String)
    (payload : SystemInfoPayload) (now : Int) : Option (DB × Bool) :=
  let tsValue := toBigInt payload.ts
  let observedAt := tsValue
  let existing := db.systemInfos.find? (fun r => r.nodeId = nodeId)
  if existing.map (fun r => r.hash) = some payload.hash then
    if db.nodes.any (fun n => n.id = nodeId) then
      some ({ db with nodes := touchNodeLastSeen db.nodes nodeId observedAt }, false)
    else none
  else
    if db.nodes.any (fun n => n.id = nodeId) then
      let systemInfos' :=
        match existing with
        | some _ => db.systemInfos.map (fun r =>
            if r.nodeId = nodeId then
              { r with hash := payload.hash, payload := payload,
                       reportedTs := tsValue, updatedAt := now }
            else r)
        | none => db.systemInfos ++
            [⟨nodeId, payload.hash, payload, tsValue, now, now⟩]
      some ({ db with
        systemInfos := systemInfos',
        nodes := touchNodeLastSeen db.nodes nodeId observedAt }, true)
    else none

end SystemInfoStore

/-! ## User / role / token / session store surface -/

/-- Join `user.roles.map(e => e.role.name)` produced by the Prisma
`include: { roles: { include: { role: true } } }`. -/
def roleNamesOfUser (db : DB) (userId : String) : List String :=
  (db.userRoles.filter (fun ur => ur.userId = userId)).filterMap
    (fun ur => (db.roles.find? (fun r => r.id = ur.roleId)).map (fun r => r.name))

/-- Effective permission codes of a user: union over the user's roles of the
role's permission codes (`getSessionPermissionCodes`). -/
def sessionPermissionCodes (db : DB) (userId : String) : List String :=
  (db.userRoles.filter (fun ur => ur.userId = userId)).flatMap
    (fun ur => (db.rolePermissions.filter (fun rp => rp.roleId = ur.roleId)).filterMap
      (fun rp => (db.permissions.find? (fun p => p.id = rp.permissionId)).map
        (fun p => p.code)))

namespace UserStore

/-- Translation of `UserStore.findByEmail` (lookup by `emailNormalized`). -/
def findByEmail (db : DB) (emailNormalized : String) : Option UserRow :=
  db.users.find? (fun u => u.emailNormalized = emailNormalized)

/-- Translation of `UserStore.findById`. -/
def findById (db : DB) (userId : String) : Option UserRow :=
  db.users.find? (fun u => u.id = userId)

/-- Translation of `UserStore.hasCredentialedAdmin`: some user with a
non-null `passwordHash` holds the `admin` role. -/
def hasCredentialedAdmin (db : DB) : Bool :=
  db.users.any (fun u => u.passwordHash.isSome ∧ "admin" ∈ roleNamesOfUser db u.id)

/-- Translation of `UserStore.hasCredentialedAdminExcludingEmail`. -/
def hasCredentialedAdminExcludingEmail (db : DB) (emailNormalized : String) : Bool :=
  db.users.any (fun u => u.emailNormalized ≠ emailNormalized ∧
    u.passwordHash.isSome ∧ "admin" ∈ roleNamesOfUser db u.id)

/-- Translation of `UserStore.createShellUser` (`prisma.user.create`): a
duplicate `emailNormalized` violates the unique constraint (`none`). -/
def createShellUser (db : DB) (freshId : String) (email : String)
    (displayName : Option String) : Option (UserRow × DB) :=
  let emailTrimmed := jsTrim email
  let emailNormalized := jsToLower emailTrimmed
  if db.users.any (fun u => u.emailNormalized = emailNormalized ∨ u.id = freshId) then
    none
  else
    let dn := displayName.bind (fun d => if jsTrim d = "" then none else some (jsTrim d))
    let row : UserRow :=
      ⟨freshId, emailTrimmed, emailNormalized, none, none, false, 0, none,
        none, none, dn⟩
    some (row, { db with users := db.users ++ [row] })

/-- Translation of `UserStore.updatePassword`. -/
def updatePassword (db : DB) (userId : String) (passwordHash : String)
    (now : Int) : DB :=
  { db with users := db.users.map (fun u =>
      if u.id = userId then
        { u with passwordHash := some passwordHash,
                 emailVerifiedAt := some now,
                 failedLoginCount := 0,
                 lockedUntil := none }
      else u) }

/-- Translation of `UserStore.updateProfileAndPassword`. -/
def updateProfileAndPassword (db : DB) (userId : String) (email : String)
    (passwordHash : String) (displayName : Option String) (now : Int) : DB :=
  let emailTrimmed := jsTrim email
  let emailNormalized := jsToLower emailTrimmed
  let dn := displayName.bind (fun d => if jsTrim d = "" then none else some (jsTrim d))
  { db with users := db.users.map (fun u =>
      if u.id = userId then
        { u with email := emailTrimmed,
                 emailNormalized := emailNormalized,
                 passwordHash := some passwordHash,
                 emailVerifiedAt := some now,
                 displayName := dn,
                 failedLoginCount := 0,
                 lockedUntil := none }
      else u) }

/-- Translation of `UserStore.recordLoginFailure`
(`failedLoginCount: { increment: 1 }`). -/
def recordLoginFailure (db : DB) (userId : String) : DB :=
  { db with users := db.users.map (fun u =>
      if u.id = userId then { u with failedLoginCount := u.failedLoginCount + 1 }
      else u) }

/-- Translation of `UserStore.recordLoginSuccess`. -/
def recordLoginSuccess (db : DB) (userId : String) (ip : Option String)
    (now : Int) : DB :=
  { db with users := db.users.map (fun u =>
      if u.id = userId then
        { u with failedLoginCount := 0, lockedUntil := none,
                 lastLoginAt := some now, lastLoginIp := ip }
      else u) }

/-- Translation of `UserStore.deleteById` with the schema's cascades: the
user's sessions, auth tokens and role links go with the row. -/
def deleteById (db : DB) (userId : String) : DB :=
  { db with
    users := db.users.filter (fun u => u.id ≠ userId),
    sessions := db.sessions.filter (fun s => s.userId ≠ userId),
    authTokens := db.authTokens.filter (fun t => t.userId ≠ userId),
    userRoles := db.userRoles.filter (fun ur => ur.userId ≠ userId) }

end UserStore

namespace RoleStore

/-- Translation of `RoleStore.ensureRole` (`prisma.role.upsert` keyed by the
unique `name`; the update branch rewrites `description`). -/
def ensureRole (db : DB) (freshId : String) (name : String)
    (description : Option String) : RoleRow × DB :=
  match db.roles.find? (fun r => r.name = name) with
  | some r =>
      let r' := { r with description := description }
      (r', { db with roles := db.roles.map (fun x => if x.name = name then r' else x) })
  | none =>
      let r : RoleRow := ⟨freshId, name, description⟩
      (r, { db with roles := db.roles ++ [r] })

/-- Translation of `RoleStore.assignRole` (`prisma.userRole.upsert`:
idempotent insert of the composite key). -/
def assignRole (db : DB) (userId roleId : String) : DB :=
  if db.userRoles.any (fun ur => ur.userId = userId ∧ ur.roleId = roleId) then db
  else { db with userRoles := db.userRoles ++ [⟨userId, roleId⟩] }

/-- Modelled from the spec: `FindRolesByNames` — the store function is called
by the roles route but its body is not part of the excerpt; per the spec it
resolves the given names to role rows. -/
def findRolesByNames (db : DB) (names : List String) : List RoleRow :=
  db.roles.filter (fun r => r.name ∈ names)

/-- Modelled from the spec: `ReplaceUserRoles(userId, roleIds[])` with
set-equality semantics — the store function is called by the roles route but
its body is not part of the excerpt; per the spec it replaces the user's
role links with exactly the given role ids. -/
def replaceUserRoles (db : DB) (userId : String) (roleIds : List String) : DB :=
  { db with userRoles :=
      (db.userRoles.filter (fun ur => ur.userId ≠ userId)) ++
        roleIds.map (fun rid => ⟨userId, rid⟩) }

end RoleStore

namespace AuthTokenStore

/-- Translation of `AuthTokenStore.createResetToken`: fails on a duplicate
`tokenHash` (unique constraint). -/
def createResetToken (db : DB) (freshId userId tokenHash : String)
    (expiresAt now : Int) : Option (AuthTokenRow × DB) :=
  if db.authTokens.any (fun t => t.tokenHash = tokenHash ∨ t.id = freshId) then none
  else
    let row : AuthTokenRow :=
      ⟨freshId, userId, .RESET_PASSWORD, tokenHash, now, expiresAt, none, none⟩
    some (row, { db with authTokens := db.authTokens ++ [row] })

/-- Delete used by both rotate variants: every unconsumed
`RESET_PASSWORD` token of the user. -/
def deleteUnconsumedResetTokens (db : DB) (userId : String) : DB :=
  { db with authTokens := db.authTokens.filter (fun t =>
      ¬ (t.userId = userId ∧ t.ttype = .RESET_PASSWORD ∧ t.consumedAt = none)) }

/-- Translation of `AuthTokenStore.rotateResetToken`: delete outstanding
unconsumed reset tokens for the user, then insert a fresh one. -/
def rotateResetToken (db : DB) (freshId userId tokenHash : String)
    (expiresAt now : Int) : Option (AuthTokenRow × DB) :=
  createResetToken (deleteUnconsumedResetTokens db userId) freshId userId
    tokenHash expiresAt now

/-- Translation of `AuthTokenStore.rotateResetTokenWithMetadata`: same as
`rotateResetToken` but the inserted row carries the given JSON `metadata`. -/
def rotateResetTokenWithMetadata (db : DB) (freshId userId tokenHash : String)
    (expiresAt now : Int) (metadata : JsValue) : Option (AuthTokenRow × DB) :=
  let db1 := deleteUnconsumedResetTokens db userId
  if db1.authTokens.any (fun t => t.tokenHash = tokenHash ∨ t.id = freshId) then none
  else
    let row : AuthTokenRow :=
      ⟨freshId, userId, .RESET_PASSWORD, tokenHash, now, expiresAt, none,
        some metadata⟩
    some (row, { db1 with authTokens := db1.authTokens ++ [row] })

/-- Translation of `AuthTokenStore.findActiveResetTokenByUser` (unconsumed,
unexpired, newest first — the model keeps insertion order and takes the
last). -/
def findActiveResetTokenByUser (db : DB) (userId : String) (now : Int) :
    Option AuthTokenRow :=
  (db.authTokens.filter (fun t => t.userId = userId ∧ t.ttype = .RESET_PASSWORD ∧
    t.consumedAt = none ∧ now < t.expiresAt)).getLast?

/-- Translation of `AuthTokenStore.findUsableResetToken` (lookup by
`tokenHash`, unconsumed and unexpired). -/
def findUsableResetToken (db : DB) (tokenHash : String) (now : Int) :
    Option AuthTokenRow :=
  db.authTokens.find? (fun t => t.tokenHash = tokenHash ∧
    t.ttype = .RESET_PASSWORD ∧ t.consumedAt = none ∧ now < t.expiresAt)

/-- Translation of `AuthTokenStore.consumeToken`. -/
def consumeToken (db : DB) (tokenId : String) (now : Int) : DB :=
  { db with authTokens := db.authTokens.map (fun t =>
      if t.id = tokenId then { t with consumedAt := some now } else t) }

end AuthTokenStore

namespace SessionStore

/-- Translation of `SessionStore.createSession`: fails on a duplicate
`tokenHash` (unique constraint). -/
def createSession (db : DB) (freshId userId tokenHash : String)
    (expiresAt now : Int) (ip userAgent : Option String) :
    Option (SessionRow × DB) :=
  if db.sessions.any (fun s => s.tokenHash = tokenHash ∨ s.id = freshId) then none
  else
    let row : SessionRow :=
      ⟨freshId, userId, tokenHash, now, expiresAt, none, none, ip, userAgent⟩
    some (row, { db with sessions := db.sessions ++ [row] })

/-- Translation of `SessionStore.findActiveSessionByTokenHash` together with
its `include: { user: ... }` join: the active session row (not revoked,
unexpired) paired with its user row. -/
def findActiveSessionByTokenHash (db : DB) (tokenHash : String) (now : Int) :
    Option (SessionRow × UserRow) :=
  (db.sessions.find? (fun s => s.tokenHash = tokenHash ∧ s.revokedAt = none ∧
    now < s.expiresAt)).bind
    (fun s => (db.users.find? (fun u => u.id = s.userId)).map (fun u => (s, u)))

/-- Translation of `SessionStore.touchSession`. -/
def touchSession (db : DB) (sessionId : String) (now : Int) : DB :=
  { db with sessions := db.sessions.map (fun s =>
      if s.id = sessionId then { s with lastSeenAt := some now } else s) }

/-- Translation of `SessionStore.revokeByTokenHash` (`updateMany`). -/
def revokeByTokenHash (db : DB) (tokenHash : String) (now : Int) : DB :=
  { db with sessions := db.sessions.map (fun s =>
      if s.tokenHash = tokenHash ∧ s.revokedAt = none then
        { s with revokedAt := some now }
      else s) }

end SessionStore

/-! ## Identity primitives (`apps/api/src/user/auth.ts`).
`createHash("sha256")` and `randomBytes` are platform code; the digest
function is threaded through as `sha256hex` and minted plaintexts as
explicit fresh values. -/

/-- Token triple returned by the minting helpers. -/
structure TokenTriple where
  token : String
  tokenHash : String
  expiresAt : Int
deriving DecidableEq, Repr

namespace Passwords

/-- Translation of `Passwords.hashToken`: the SHA-256 hex digest of the
plaintext. -/
def hashToken (sha256hex : String → String) (token : String) : String :=
  sha256hex token

/-- Translation of `Passwords.resetPasswordToken`: a fresh 32-byte
base64url plaintext (supplied as `freshTok`), its SHA-256 digest, and a
1-hour expiry. -/
def resetPasswordToken (sha256hex : String → String) (freshTok : String)
    (now : Int) : TokenTriple :=
  ⟨freshTok, sha256hex freshTok, now + 60 * 60 * 1000⟩

/-- Modelled from the spec: `CreateNodeToken()` — called by the node-create
route but not present in the excerpt; per the spec it mints a 32-byte random
bearer and returns the plaintext with its SHA-256 digest. -/
def createNodeToken (sha256hex : String → String) (freshTok : String) :
    String × String :=
  (freshTok, sha256hex freshTok)

end Passwords

namespace Sessions

/-- Translation of `Sessions.createSession`: fresh plaintext, its SHA-256
digest, and a 7-day expiry. -/
def createSession (sha256hex : String → String) (freshTok : String)
    (now : Int) : TokenTriple :=
  ⟨freshTok, sha256hex freshTok, now + 7 * 24 * 60 * 60 * 1000⟩

end Sessions

/-! ## Topic routing (`apps/api/src/user/topic.ts`) -/

/-- Translation of `parseNodeMetricsTopic`
(regex `^statix\/nodes\/([^\/]+)\/metrics$`): the topic must consist of
exactly the four slash-separated segments `statix`, `nodes`, a non-empty
node id without slashes, and `metrics`. -/
def parseNodeMetricsTopic (topic : String) : Option String :=
  match jsSplit topic '/' with
  | [a, b, nodeId, d] =>
      if a = "statix" ∧ b = "nodes" ∧ nodeId ≠ "" ∧ d = "metrics" then
        some nodeId
      else none
  | _ => none

/-- Translation of `parseNodeSystemInfoTopic`
(regex `^statix\/nodes\/([^\/]+)\/system$`). -/
def parseNodeSystemInfoTopic (topic : String) : Option String :=
  match jsSplit topic '/' with
  | [a, b, nodeId, d] =>
      if a = "statix" ∧ b = "nodes" ∧ nodeId ≠ "" ∧ d = "system" then
        some nodeId
      else none
  | _ => none

/-! ## Ingest handler (`apps/api/src/user/handler.ts`) -/

/-- Translation of `handleMqttMessage`.  `raw?` is the result of
`JSON.parse` on the UTF-8 payload (`none` models malformed JSON, whose
exception the handler catches).  Store errors (`appendNodeMetric` /
`upsertNodeSystemInfo` returning `none`) are caught, logged and swallowed,
leaving the state unchanged.  The function is total: no exception escapes. -/
def handleMqttMessage (db : DB) (topic : String) (raw? : Option JsValue)
    (now : Int) : DB :=
  let topicMatch := parseNodeMetricsTopic topic
  let systemInfoTopicMatch := parseNodeSystemInfoTopic topic
  if topicMatch = none ∧ systemInfoTopicMatch = none then db
  else
    match raw? with
    | none => db
    | some raw =>
      match topicMatch with
      | some nodeId =>
        match MetricsSchema.safeParse raw with
        | none => db
        | some payload => (MetricStore.appendNodeMetric db nodeId payload now).getD db
      | none =>
        match systemInfoTopicMatch with
        | some nodeId =>
          match SystemInfoSchema.safeParse raw with
          | none => db
          | some payload =>
              ((SystemInfoStore.upsertNodeSystemInfo db nodeId payload now).map
                Prod.fst).getD db
        | none => db

/-! ## Live roster fan-out (`apps/api/src/realtime/nodes.ts`) -/

/-- WebSocket `readyState` values. -/
inductive SocketReadyState where
  | CONNECTING
  | OPEN
  | CLOSING
  | CLOSED
deriving DecidableEq, Repr

/-- A connected dashboard socket (identified by `sid` in the model). -/
structure WsClient where
  sid : Nat
  readyState : SocketReadyState
deriving DecidableEq, Repr

/-- The module state of `realtime/nodes.ts`: the `clients` set and the
`broadcastTimer` (modelled as the deadline of the pending timer, `none` when
no broadcast is pending). -/
structure RealtimeState where
  clients : List WsClient
  broadcastTimer : Option Int

/-- Node summary produced by `listNodes` (the snapshot element).  The stored
JSONB payload re-validates through `SystemInfoSchema` in the source; rows
written by `upsertNodeSystemInfo` hold already-validated payloads, so the
`info` projection is their `info` member. -/
structure NodeSummary where
  id : String
  name : Option String
  lastSeenAt : Int
  createdAt : Int
  updatedAt : Int
  publishCount : Nat
  lastPublishAt : Option Int
  latestMetric : Option MetricDto
  systemInfoHash : Option String
  systemInfoReportedTs : Option Int
  systemInfoDetails : Option SystemInfoDetails
deriving DecidableEq, Repr

/-- Translation of `listNodes` (`prisma.node.findMany` ordered by
`createdAt DESC` with newest metric, metric count and system info joins). -/
def listNodes (db : DB) : List NodeSummary :=
  (db.nodes.mergeSort (fun a b => decide (b.createdAt ≤ a.createdAt))).map
    (fun node =>
      let nodeMetrics := (db.metrics.filter (fun r => r.nodeId = node.id)).mergeSort
        newestFirst
      let latest := nodeMetrics.head?
      let si := db.systemInfos.find? (fun r => r.nodeId = node.id)
      { id := node.id
        name := node.name
        lastSeenAt := node.lastSeenAt
        createdAt := node.createdAt
        updatedAt := node.updatedAt
        publishCount := nodeMetrics.length
        lastPublishAt := latest.map (fun r => r.createdAt)
        latestMetric := latest.map MetricRow.toDto
        systemInfoHash := si.map (fun r => r.hash)
        systemInfoReportedTs := si.map (fun r => r.reportedTs)
        systemInfoDetails := si.map (fun r => r.payload.info) })

/-- Translation of `markNodesChanged`: when a broadcast timer is already
pending the call returns immediately; otherwise a single broadcast is
scheduled 150 ms from `now`. -/
def markNodesChanged (st : RealtimeState) (now : Int) : RealtimeState :=
  if st.broadcastTimer.isSome then st
  else { st with broadcastTimer := some (now + 150) }

/-- Translation of `broadcastSnapshot`: nothing happens with no clients;
otherwise the snapshot is built once by `listNodes` and sent to every
socket in `OPEN` state.  `dbRead = none` models the snapshot read
throwing.  The returned list contains the frames actually handed to
`ws.send`, tagged by socket. -/
def broadcastSnapshot (st : RealtimeState) (dbRead : Option DB) :
    RealtimeState × List (Nat × List NodeSummary) :=
  if st.clients.length = 0 then (st, [])
  else
    match dbRead with
    | none => (st, [])
    | some db =>
      let snap := listNodes db
      (st, (st.clients.filter (fun c => c.readyState = .OPEN)).map
        (fun c => (c.sid, snap)))

/-- Firing of the timer scheduled by `markNodesChanged`: the callback clears
`broadcastTimer` first, then runs `broadcastSnapshot` inside a
`try`/`catch` that logs a failed snapshot read without touching the client
set. -/
def fireBroadcastTimer (st : RealtimeState) (dbRead : Option DB) :
    RealtimeState × List (Nat × List NodeSummary) :=
  broadcastSnapshot { st with broadcastTimer := none } dbRead

/-! ## HTTP route handlers.
Request bodies arrive as `Option`-wrapped fields (`none` = absent or of the
wrong JS type); crypto and minted randomness are explicit parameters. -/

/-- Translation of `readBearerToken`: split the `Authorization` header on
spaces, require the `Bearer` scheme and a non-empty token. -/
def readBearerToken (rawHeader : Option String) : Option String :=
  match rawHeader with
  | none => none
  | some raw =>
    match jsSplit raw ' ' with
    | scheme :: token :: _ =>
        if scheme = "Bearer" ∧ token ≠ "" then some token else none
    | _ => none

/-- Translation of `normalizeEmail`. -/
def normalizeEmail (email : String) : String := jsToLower (jsTrim email)

/-- Translation of `parseEmail`: `z.string().trim().email()`.  The email
format test itself is zod library code and is threaded as `isEmail`. -/
def parseEmail (isEmail : String → Bool) (email? : Option String) :
    Option String :=
  match email? with
  | some e => if isEmail (jsTrim e) then some (jsTrim e) else none
  | none => none

/-- Translation of `parseStringArray`: requires an array of strings, trims
entries, drops empties, and de-duplicates preserving first occurrence
(`[...new Set(items)]`). -/
def dedupeKeepFirst (xs : List String) : List String :=
  xs.foldl (fun acc s => if s ∈ acc then acc else acc ++ [s]) []

/-- Translation of `parseStringArray` (see `dedupeKeepFirst`). -/
def parseStringArray (v? : Option JsValue) : Option (List String) :=
  match v? with
  | some (.arr xs) =>
      (xs.mapM (fun x => match x with | JsValue.str s => some s | _ => none)).map
        (fun ss : List String =>
          dedupeKeepFirst ((ss.map jsTrim).filter (fun s => s ≠ "")))
  | _ => none

/-- Translation of `requireSessionFromAuthorization` (routes/nodes.ts):
read the bearer, hash it, find the active session with its user. -/
def requireSessionFromAuthorization (sha256hex : String → String) (db : DB)
    (now : Int) (authHeader : Option String) :
    Except (Nat × String) (SessionRow × UserRow) :=
  match readBearerToken authHeader with
  | none => .error (401, "missing bearer token")
  | some tok =>
    match SessionStore.findActiveSessionByTokenHash db
        (Passwords.hashToken sha256hex tok) now with
    | none => .error (401, "invalid session")
    | some su => .ok su

/-- Translation of `requireAdminSession` (routes/auth.ts): like
`requireSessionFromAuthorization` plus the `admin` role check. -/
def requireAdminSession (sha256hex : String → String) (db : DB) (now : Int)
    (authHeader : Option String) : Except (Nat × String) (SessionRow × UserRow) :=
  match requireSessionFromAuthorization sha256hex db now authHeader with
  | .error e => .error e
  | .ok (s, u) =>
      if "admin" ∈ roleNamesOfUser db u.id then .ok (s, u)
      else .error (403, "admin role required")

/-- Translation of `sessionHasPermission`: membership in the session's
effective permission codes. -/
def sessionHasPermission (db : DB) (userId : String) (code : String) : Bool :=
  code ∈ sessionPermissionCodes db userId

/-- Result of `POST /auth/login`. -/
inductive LoginResult where
  | badRequest (msg : String)
  | unauthorized (msg : String)
  | forbidden (msg : String)
  | serverError
  | ok (token : String) (expiresAt : Int) (userId email : String)
      (displayName : Option String) (roles : List String)
deriving DecidableEq, Repr

/-- Translation of the `POST /auth/login` handler.  `verify` models
`argon2.verify`; `freshSessionId`/`freshSessionTok` are the minted
randomness; `ip`/`userAgent` come from the request. -/
def loginRoute (sha256hex : String → String) (verify : String → String → Bool)
    (isEmail : String → Bool) (db : DB) (now : Int)
    (freshSessionId freshSessionTok : String) (ip userAgent : Option String)
    (email? password? : Option String) : LoginResult × DB :=
  match parseEmail isEmail email?, password? with
  | some pe, some pw =>
    match UserStore.findByEmail db (normalizeEmail pe) with
    | none => (.unauthorized "invalid credentials", db)
    | some user =>
      match user.passwordHash with
      | none => (.unauthorized "invalid credentials", db)
      | some ph =>
        if verify pw ph = false then
          (.unauthorized "invalid credentials", UserStore.recordLoginFailure db user.id)
        else if user.isDisabled then
          (.forbidden "account disabled", db)
        else
          let st := Sessions.createSession sha256hex freshSessionTok now
          match SessionStore.createSession db freshSessionId user.id
              st.tokenHash st.expiresAt now ip userAgent with
          | none => (.serverError, db)
          | some (_, db1) =>
            let db2 := UserStore.recordLoginSuccess db1 user.id ip now
            (.ok st.token st.expiresAt user.id user.email user.displayName
              (roleNamesOfUser db user.id), db2)
  | _, _ => (.badRequest "email and password are required", db)

/-- Result of `POST /nodes/auth/exchange`. -/
inductive ExchangeResult where
  | badRequest (msg : String)
  | unauthorized (msg : String)
  | ok (host : String) (port : Int) (username password : String)
      (expiresAt : Option Int)
deriving DecidableEq, Repr

/-- Broker coordinates read from the environment by the exchange route. -/
structure MqttEnv where
  host : String
  port : Int
  username : String
  password : String
deriving DecidableEq, Repr

/-- Translation of the `POST /nodes/auth/exchange` handler: fetch the node,
require a stored `authTokenHash`, compare the SHA-256 of the presented
plaintext byte-equal to it, and return the broker coordinates with
`expiresAt: null`. -/
def exchangeRoute (sha256hex : String → String) (env : MqttEnv) (db : DB)
    (nodeId? nodeToken? : Option String) : ExchangeResult :=
  match nodeId?, nodeToken? with
  | some nodeId, some nodeToken =>
    match NodeStore.findById db nodeId with
    | none => .unauthorized "invalid node credentials"
    | some node =>
      match node.authTokenHash with
      | none => .unauthorized "invalid node credentials"
      | some stored =>
        if Passwords.hashToken sha256hex nodeToken ≠ stored then
          .unauthorized "invalid node credentials"
        else
          .ok env.host env.port env.username env.password none
  | _, _ => .badRequest "nodeId and nodeToken are required"

/-- Result of `POST /nodes/create`. -/
inductive CreateNodeResult where
  | authFail (status : Nat) (msg : String)
  | badRequest (msg : String)
  | serverError
  | created (id : String) (name : Option String) (createdAt : Int)
      (token : String) (envFile : String)
deriving DecidableEq, Repr

/-- Translation of the `POST /nodes/create` handler: session with the
`nodes:create` permission, a non-empty name, a freshly minted node token
whose digest becomes `authTokenHash`; the plaintext is returned once in the
body and the generated agent env file. -/
def createNodeRoute (sha256hex : String → String) (db : DB) (now : Int)
    (authHeader : Option String) (name? : Option String)
    (freshNodeId freshNodeTok : String) : CreateNodeResult × DB :=
  match requireSessionFromAuthorization sha256hex db now authHeader with
  | .error (s, m) => (.authFail s m, db)
  | .ok (_, user) =>
    if sessionHasPermission db user.id "nodes:create" = false then
      (.authFail 403 "permission required: nodes:create", db)
    else
      match name? with
      | none => (.badRequest "name is required", db)
      | some name =>
        if jsTrim name = "" then (.badRequest "name is required", db)
        else
          let minted := Passwords.createNodeToken sha256hex freshNodeTok
          match createNode db freshNodeId (some (jsTrim name)) minted.2 now with
          | none => (.serverError, db)
          | some (node, db1) =>
            let envFile := String.intercalate "\n"
              ["NODE_ID=" ++ node.id,
               "NODE_TOKEN=" ++ minted.1,
               "API_BASE_URL=http://127.0.0.1:3001",
               "NODE_AUTH_EXCHANGE_PATH=/nodes/auth/exchange",
               "NODE_METRICS_TOPIC=statix/nodes/\x7bnodeId\x7d/metrics",
               "NODE_SYSTEM_INFO_TOPIC=statix/nodes/\x7bnodeId\x7d/system",
               "PUBLISH_INTERVAL_MS=5000",
               "SYSTEM_INFO_CHECK_INTERVAL_MS=600000",
               "SYSTEM_INFO_REPUBLISH_INTERVAL_MS=86400000",
               "EXCHANGE_INTERVAL_MS=900000",
               "RECONNECT_DELAY_MS=3000",
               "MQTT_CONNECT_TIMEOUT_MS=8000"]
            (.created node.id node.name node.createdAt minted.1 envFile, db1)

/-- Result of `POST /auth/users`. -/
inductive CreateUserResult where
  | authFail (status : Nat) (msg : String)
  | badRequest (msg : String)
  | serverError
  | created (id email setupToken : String) (setupTokenExpiresAt : Int)
deriving DecidableEq, Repr

/-- Translation of the `POST /auth/users` handler: admin session, valid
email, shell user creation, default `user` role, and a freshly minted setup
token whose digest is stored by `rotateResetToken`; the plaintext is
returned once. -/
def createUserRoute (sha256hex : String → String) (isEmail : String → Bool)
    (db : DB) (now : Int) (authHeader : Option String)
    (email? displayName? : Option String)
    (freshUserId freshRoleId freshTokenId freshTok : String) :
    CreateUserResult × DB :=
  match requireAdminSession sha256hex db now authHeader with
  | .error (s, m) => (.authFail s m, db)
  | .ok _ =>
    match parseEmail isEmail email? with
    | none => (.badRequest "email is required", db)
    | some email =>
      match UserStore.createShellUser db freshUserId email displayName? with
      | none => (.serverError, db)
      | some (newUser, db1) =>
        let er := RoleStore.ensureRole db1 freshRoleId "user" (some "Default user role")
        let db2 := RoleStore.assignRole er.2 newUser.id er.1.id
        let setupToken := Passwords.resetPasswordToken sha256hex freshTok now
        match AuthTokenStore.rotateResetToken db2 freshTokenId newUser.id
            setupToken.tokenHash setupToken.expiresAt now with
        | none => (.serverError, db2)
        | some (_, db3) =>
          (.created newUser.id newUser.email setupToken.token setupToken.expiresAt,
            db3)

/-- Result of `POST /auth/users/:userId/roles`. -/
inductive ReplaceRolesResult where
  | authFail (status : Nat) (msg : String)
  | badRequest (msg : String)
  | notFound (msg : String)
  | ok (id email : String) (roles : List String)
deriving DecidableEq, Repr

/-- Translation of the `POST /auth/users/:userId/roles` handler, including
the admin-floor guard: when the target currently holds `admin`, the new set
does not, and no other credentialed admin exists, the request fails with
400 `"cannot remove the last credentialed admin"`. -/
def replaceUserRolesRoute (sha256hex : String → String) (db : DB) (now : Int)
    (authHeader : Option String) (userIdParam : Option String)
    (roleNamesBody : Option JsValue) : ReplaceRolesResult × DB :=
  match requireAdminSession sha256hex db now authHeader with
  | .error (s, m) => (.authFail s m, db)
  | .ok _ =>
    match userIdParam with
    | none => (.badRequest "userId is required", db)
    | some userId =>
      if userId = "" then (.badRequest "userId is required", db)
      else
        match parseStringArray roleNamesBody with
        | none => (.badRequest "at least one role is required", db)
        | some roleNames =>
          if roleNames.length = 0 then
            (.badRequest "at least one role is required", db)
          else
            match UserStore.findById db userId with
            | none => (.notFound "user not found", db)
            | some user =>
              let roles := RoleStore.findRolesByNames db roleNames
              if roles.length ≠ roleNames.length then
                let missing := roleNames.filter
                  (fun n => ¬ roles.any (fun r => r.name = n))
                (.badRequest ("unknown roles: " ++ String.intercalate ", " missing),
                  db)
              else
                let isRemovingAdmin := "admin" ∈ roleNamesOfUser db user.id ∧
                  "admin" ∉ roleNames
                if isRemovingAdmin ∧
                    UserStore.hasCredentialedAdminExcludingEmail db
                      user.emailNormalized = false then
                  (.badRequest "cannot remove the last credentialed admin", db)
                else
                  let db1 := RoleStore.replaceUserRoles db user.id
                    (roles.map (fun r => r.id))
                  match UserStore.findById db1 user.id with
                  | some updated =>
                      (.ok updated.id updated.email (roleNamesOfUser db1 updated.id),
                        db1)
                  | none =>
                      (.ok user.id user.email (roleNamesOfUser db user.id), db1)

/-! ## Prestart (`apps/api/src/prestart/prestart.ts`) -/

/-- The reserved shell-admin address (`BOOTSTRAP_EMAIL`). -/
def BOOTSTRAP_EMAIL : String := "bootstrap-admin@example.com"

/-- Extraction of `metadata.bootstrapToken` as done by `runPrestart`
(object-typed metadata with a string-typed `bootstrapToken`). -/
def bootstrapTokenOfMeta (m? : Option JsValue) : Option String :=
  match m? with
  | some (.obj fields) =>
      match (JsValue.obj fields).get? "bootstrapToken" with
      | some (.str s) => some s
      | _ => none
  | _ => none

/-- Continuation of `runPrestart` once the shell admin row is at hand:
nothing to do when it already has a password; otherwise ensure the `admin`
role and an outstanding reset token whose `metadata.bootstrapToken` carries
the freshly minted plaintext (rotated only when no active one exists). -/
def runPrestartWithAdmin (sha256hex : String → String) (db : DB) (now : Int)
    (freshRoleId freshTokenId freshTok : String) (adminUser : UserRow) :
    Option DB :=
  if adminUser.passwordHash.isSome then some db
  else
    let er := RoleStore.ensureRole db freshRoleId "admin"
      (some "Full administrative access")
    let db1 := RoleStore.assignRole er.2 adminUser.id er.1.id
    let existingToken := AuthTokenStore.findActiveResetTokenByUser db1
      adminUser.id now
    let existingBootstrapToken := existingToken.bind
      (fun t => bootstrapTokenOfMeta t.metadata)
    match existingToken, existingBootstrapToken with
    | some _, some _ => some db1
    | _, _ =>
      let resetToken := Passwords.resetPasswordToken sha256hex freshTok now
      (AuthTokenStore.rotateResetTokenWithMetadata db1 freshTokenId
        adminUser.id resetToken.tokenHash resetToken.expiresAt now
        (.obj [("bootstrapToken", .str resetToken.token)])).map
        (fun r => r.2)

/-- Translation of `runPrestart`: when a credentialed admin other than the
shell account exists, the shell account is purged; otherwise the shell
admin is ensured (created when missing) and handed to
`runPrestartWithAdmin`.  `none` models the `throw` paths. -/
def runPrestart (sha256hex : String → String) (db : DB) (now : Int)
    (freshUserId freshRoleId freshTokenId freshTok : String) : Option DB :=
  let emailNormalized := jsToLower BOOTSTRAP_EMAIL
  if UserStore.hasCredentialedAdminExcludingEmail db emailNormalized then
    match UserStore.findByEmail db emailNormalized with
    | some bootstrapUser => some (UserStore.deleteById db bootstrapUser.id)
    | none => some db
  else
    match UserStore.findByEmail db emailNormalized with
    | some adminUser =>
        runPrestartWithAdmin sha256hex db now freshRoleId freshTokenId
          freshTok adminUser
    | none =>
      match UserStore.createShellUser db freshUserId BOOTSTRAP_EMAIL
          (some "Admin") with
      | none => none
      | some (createdAdmin, db1) =>
        match UserStore.findById db1 createdAdmin.id with
        | none => none
        | some adminUser =>
            runPrestartWithAdmin sha256hex db1 now freshRoleId freshTokenId
              freshTok adminUser

/-! ## Claims -/

/-- Concrete database used by the C4 counterexample: one node `n1`. -/
def c4node : NodeRow := ⟨"n1", some "edge", 0, 0, 0, some "h", none, none, none⟩

/-- Concrete database used by the C4 counterexample. -/
def c4db : DB := { DB.empty with nodes := [c4node] }

/-- Concrete schema-valid metrics payload with the fractional timestamp
`ts = 1/2`. -/
def c4payload : MetricsPayload :=
  ⟨.finite (mkRat 1 2), .finite 0, .finite 1, .finite 2, .finite 0,
    .finite 1, .finite 0, .finite 0⟩

/-- Concrete JSON value that `MetricsSchema` accepts as `c4payload`. -/
def c4json : JsValue :=
  .obj [("v", .num (.finite 1)), ("ts", .num (.finite (mkRat 1 2))),
        ("cpu", .num (.finite 0)), ("mem_used", .num (.finite 1)),
        ("mem_total", .num (.finite 2)), ("disk_used", .num (.finite 0)),
        ("disk_total", .num (.finite 1)), ("net_rx", .num (.finite 0)),
        ("net_tx", .num (.finite 0))]

/-- C4 counterexample: `AppendMetric` does NOT advance `Node.lastSeenAt` to
the payload's `ts` for every valid payload.  The schema accepts
`ts = 1/2`, and the committed `lastSeenAt` is the truncation `0 ≠ 1/2`. -/
theorem C4_counterexample :
    MetricsSchema.safeParse c4json = some c4payload ∧
    MetricStore.appendNodeMetric c4db "n1" c4payload 1000 =
      some { c4db with
        metrics := [⟨"n1", 1000, 0, .finite 0, 1, 2, 0, 1, 0, 0⟩],
        nodes := [{ c4node with lastSeenAt := 0 }] } ∧
    c4payload.ts = .finite (mkRat 1 2) ∧
    ((0 : ℚ) = mkRat 1 2 → False) := by
  refine ⟨by decide, ?_, by decide, by decide⟩
  rfl

/-- C4 (amended): for every existing node and payload, `AppendMetric`
commits exactly one new `Metric` row together with the `lastSeenAt` update
— `lastSeenAt` becomes the truncated `ts` (`toBigInt`), not `ts` itself —
and touches nothing else; when the node is missing the whole transaction
fails and no write at all is visible (`none`). -/
theorem C4_appendMetric_atomic (db : DB) (nodeId : String)
    (p : MetricsPayload) (now : Int) :
    (db.nodes.any (fun n => n.id = nodeId) = true →
      ∃ db', MetricStore.appendNodeMetric db nodeId p now = some db' ∧
        db'.metrics = db.metrics ++
          [⟨nodeId, now, toBigInt p.ts, p.cpu, toBigInt p.mem_used,
            toBigInt p.mem_total, toBigInt p.disk_used, toBigInt p.disk_total,
            toBigInt p.net_rx, toBigInt p.net_tx⟩] ∧
        db'.metrics.length = db.metrics.length + 1 ∧
        (∀ n ∈ db'.nodes, n.id = nodeId → n.lastSeenAt = toBigInt p.ts) ∧
        (∀ n ∈ db.nodes, n.id ≠ nodeId → n ∈ db'.nodes) ∧
        db'.systemInfos = db.systemInfos ∧ db'.users = db.users ∧
        db'.roles = db.roles ∧ db'.userRoles = db.userRoles ∧
        db'.permissions = db.permissions ∧
        db'.rolePermissions = db.rolePermissions ∧
        db'.sessions = db.sessions ∧ db'.authTokens = db.authTokens) ∧
    (db.nodes.any (fun n => n.id = nodeId) = false →
      MetricStore.appendNodeMetric db nodeId p now = none) := by
  constructor
  · intro h
    refine ⟨{ db with
        metrics := db.metrics ++
          [⟨nodeId, now, toBigInt p.ts, p.cpu, toBigInt p.mem_used,
            toBigInt p.mem_total, toBigInt p.disk_used, toBigInt p.disk_total,
            toBigInt p.net_rx, toBigInt p.net_tx⟩],
        nodes := touchNodeLastSeen db.nodes nodeId (toBigInt p.ts) },
      ?_, rfl, by simp, ?_, ?_, rfl, rfl, rfl, rfl, rfl, rfl, rfl, rfl⟩
    · simp [MetricStore.appendNodeMetric, touchNodeLastSeen, h]
    · intro n hn hid
      simp only [touchNodeLastSeen, List.mem_map] at hn
      obtain ⟨a, _, rfl⟩ := hn
      by_cases ha : a.id = nodeId <;> simp_all
    · intro n hn hne
      simp only [touchNodeLastSeen]
      exact List.mem_map.mpr ⟨n, hn, by simp [hne]⟩
  · intro h
    simp [MetricStore.appendNodeMetric, h]

/-- Witness for C4 (amended) at a concrete input: the node exists, the
append succeeds, and the committed `lastSeenAt` is `toBigInt ts = 0`. -/
theorem C4_appendMetric_atomic_witness :
    ∃ db', MetricStore.appendNodeMetric c4db "n1" c4payload 1000 = some db' ∧
      ∀ n ∈ db'.nodes, n.id = "n1" → n.lastSeenAt = toBigInt c4payload.ts := by
  obtain ⟨db', h1, _, _, h4, _⟩ :=
    (C4_appendMetric_atomic c4db "n1" c4payload 1000).1 (by decide)
  exact ⟨db', h1, h4⟩

/-- C10: for every schema-accepted payload, `AppendMetric` persists `ts`,
`mem_used`, `mem_total`, `disk_used`, `disk_total`, `net_rx`, `net_tx`
through `toBigInt` (integer truncation; negative or non-finite values
become `0`), only `cpu` is stored untouched, and `Node.lastSeenAt` is
derived from the truncated `ts` — while the schema itself admits
fractional non-negative numbers. -/
theorem C10_metric_truncation (v : JsValue) (p : MetricsPayload) (db : DB)
    (nodeId : String) (now : Int) (db' : DB)
    (hparse : MetricsSchema.safeParse v = some p)
    (happend : MetricStore.appendNodeMetric db nodeId p now = some db') :
    (∃ row : MetricRow, db'.metrics = db.metrics ++ [row] ∧
      row.ts = toBigInt p.ts ∧ row.memUsed = toBigInt p.mem_used ∧
      row.memTotal = toBigInt p.mem_total ∧
      row.diskUsed = toBigInt p.disk_used ∧
      row.diskTotal = toBigInt p.disk_total ∧
      row.netRx = toBigInt p.net_rx ∧ row.netTx = toBigInt p.net_tx ∧
      row.cpu = p.cpu ∧
      (∀ n ∈ db'.nodes, n.id = nodeId → n.lastSeenAt = toBigInt p.ts)) ∧
    (∀ x : JSNumber, x.isFinite = false → toBigInt x = 0) ∧
    (∀ q : ℚ, q < 0 → toBigInt (.finite q) = 0) ∧
    (∀ q : ℚ, 0 ≤ q → toBigInt (.finite q) = ⌊q⌋) ∧
    (∃ w pw, MetricsSchema.safeParse w = some pw ∧
      pw.ts = .finite (mkRat 1 2) ∧ (mkRat 1 2).den ≠ 1) := by
  refine ⟨?_, ?_, ?_, ?_, ⟨c4json, c4payload, by decide, by decide, by decide⟩⟩
  · unfold MetricStore.appendNodeMetric at happend
    by_cases h : db.nodes.any (fun n => n.id = nodeId) = true
    · simp only [h, if_true, Option.some_inj] at happend
      refine ⟨⟨nodeId, now, toBigInt p.ts, p.cpu, toBigInt p.mem_used,
          toBigInt p.mem_total, toBigInt p.disk_used, toBigInt p.disk_total,
          toBigInt p.net_rx, toBigInt p.net_tx⟩,
        ?_, rfl, rfl, rfl, rfl, rfl, rfl, rfl, rfl, ?_⟩
      · rw [← happend]
      · intro n hn hid
        rw [← happend] at hn
        simp only [List.mem_map] at hn
        obtain ⟨a, _, rfl⟩ := hn
        by_cases ha : a.id = nodeId <;> simp_all
    · simp only [Bool.not_eq_true] at h
      simp [h] at happend
  · intro x hx
    exact (toBigInt_spec x).2.2 hx
  · intro q hq
    exact (toBigInt_spec _).2.1 q rfl hq
  · intro q hq
    exact (toBigInt_spec _).1 q rfl hq

/-- Witness for C10 at a concrete input. -/
theorem C10_metric_truncation_witness :
    ∃ row : MetricRow,
      ({ c4db with
        metrics := [⟨"n1", 1000, 0, .finite 0, 1, 2, 0, 1, 0, 0⟩],
        nodes := [{ c4node with lastSeenAt := 0 }] } : DB).metrics =
          c4db.metrics ++ [row] ∧ row.ts = toBigInt c4payload.ts := by
  obtain ⟨⟨row, h1, h2, _⟩, _⟩ :=
    C10_metric_truncation c4json c4payload c4db "n1" 1000 _ (by decide) rfl
  exact ⟨row, h1, h2⟩

/-- C5: same-hash frame — when the stored hash equals the payload's hash,
`UpsertSystemInfo` returns `{changed:false}`, leaves every
`node_system_info` row untouched (payload, hash, reportedTs, updatedAt),
bumps only `Node.lastSeenAt`, and touches no other table; when the hash
differs (or no row exists) it upserts payload+hash+reportedTs and bumps
`lastSeenAt` atomically and returns `{changed:true}`. -/
theorem C5_upsertSystemInfo_frame (db : DB) (nodeId : String)
    (p : SystemInfoPayload) (now : Int) :
    ((db.systemInfos.find? (fun r => r.nodeId = nodeId)).map (fun r => r.hash) =
        some p.hash →
      db.nodes.any (fun n => n.id = nodeId) = true →
      SystemInfoStore.upsertNodeSystemInfo db nodeId p now =
        some ({ db with
          nodes := touchNodeLastSeen db.nodes nodeId (toBigInt p.ts) }, false) ∧
      (∀ db' changed,
        SystemInfoStore.upsertNodeSystemInfo db nodeId p now = some (db', changed) →
        changed = false ∧ db'.systemInfos = db.systemInfos ∧
        db'.metrics = db.metrics ∧ db'.users = db.users ∧
        db'.sessions = db.sessions ∧ db'.authTokens = db.authTokens ∧
        (∀ n ∈ db'.nodes, n.id = nodeId → n.lastSeenAt = toBigInt p.ts) ∧
        (∀ n ∈ db.nodes, n.id ≠ nodeId → n ∈ db'.nodes))) ∧
    ((db.systemInfos.find? (fun r => r.nodeId = nodeId)).map (fun r => r.hash) ≠
        some p.hash →
      db.nodes.any (fun n => n.id = nodeId) = true →
      ∃ db', SystemInfoStore.upsertNodeSystemInfo db nodeId p now =
          some (db', true) ∧
        (∀ r ∈ db'.systemInfos, r.nodeId = nodeId →
          r.hash = p.hash ∧ r.payload = p ∧ r.reportedTs = toBigInt p.ts) ∧
        (∃ r ∈ db'.systemInfos, r.nodeId = nodeId) ∧
        db'.nodes = touchNodeLastSeen db.nodes nodeId (toBigInt p.ts) ∧
        db'.metrics = db.metrics) := by
  constructor
  · intro hsame hnode
    have heq : SystemInfoStore.upsertNodeSystemInfo db nodeId p now =
        some ({ db with
          nodes := touchNodeLastSeen db.nodes nodeId (toBigInt p.ts) }, false) := by
      simp [SystemInfoStore.upsertNodeSystemInfo, hsame, hnode]
    refine ⟨heq, ?_⟩
    intro db' changed h
    rw [heq] at h
    obtain ⟨rfl, rfl⟩ : db' = { db with
        nodes := touchNodeLastSeen db.nodes nodeId (toBigInt p.ts) } ∧
        changed = false := by
      constructor <;> · injection h with h'; cases h'; rfl
    refine ⟨rfl, rfl, rfl, rfl, rfl, rfl, ?_, ?_⟩
    · intro n hn hid
      simp only [touchNodeLastSeen, List.mem_map] at hn
      obtain ⟨a, _, rfl⟩ := hn
      by_cases ha : a.id = nodeId <;> simp_all
    · intro n hn hne
      simp only [touchNodeLastSeen]
      exact List.mem_map.mpr ⟨n, hn, by simp [hne]⟩
  · intro hdiff hnode
    unfold SystemInfoStore.upsertNodeSystemInfo
    simp only [hdiff, if_false, hnode, if_true]
    cases hfind : db.systemInfos.find? (fun r => r.nodeId = nodeId) with
    | none =>
        refine ⟨_, rfl, ?_, ⟨⟨nodeId, p.hash, p, toBigInt p.ts, now, now⟩, by simp, rfl⟩,
          rfl, rfl⟩
        intro r hr hid
        simp only [List.mem_append, List.mem_singleton] at hr
        rcases hr with hr | rfl
        · exact absurd (List.find?_eq_none.mp hfind r hr) (by simp [hid])
        · exact ⟨rfl, rfl, rfl⟩
    | some r0 =>
        have hr0 : r0.nodeId = nodeId := by
          have := List.find?_some hfind
          simpa using this
        refine ⟨_, rfl, ?_, ?_, rfl, rfl⟩
        · intro r hr hid
          simp only [List.mem_map] at hr
          obtain ⟨a, _, rfl⟩ := hr
          by_cases ha : a.nodeId = nodeId <;> simp_all
        · have hmem := List.mem_of_find?_eq_some hfind
          refine ⟨({ r0 with
              hash := p.hash, payload := p,
              reportedTs := toBigInt p.ts, updatedAt := now } : SystemInfoRow),
            ?_, hr0⟩
          exact List.mem_map.mpr ⟨r0, hmem, by simp [hr0]⟩

/-- Concrete system-info details for the C5 witness. -/
def c5info : SystemInfoDetails :=
  ⟨"linux", "6.1", "x64", "host1", "cpu0", .finite 4, .finite 8, none, none,
    none, []⟩

/-- Concrete system-info payload (hash `"H"`) for the C5 witness. -/
def c5payload : SystemInfoPayload := ⟨.finite 100, "H", c5info⟩

/-- Concrete database for the C5 witness: node `n1` whose stored
`node_system_info` hash already equals the payload's. -/
def c5db : DB :=
  { DB.empty with
    nodes := [c4node],
    systemInfos := [⟨"n1", "H", c5payload, 50, 0, 0⟩] }

/-- Witness for C5 at a concrete input: the same-hash call returns
`changed:false` and bumps only the node's `lastSeenAt`. -/
theorem C5_upsertSystemInfo_frame_witness :
    SystemInfoStore.upsertNodeSystemInfo c5db "n1" c5payload 200 =
      some ({ c5db with
        nodes := touchNodeLastSeen c5db.nodes "n1" (toBigInt c5payload.ts) },
        false) :=
  ((C5_upsertSystemInfo_frame c5db "n1" c5payload 200).1 (by decide)
    (by decide)).1

/-- List length of `listRecentByNode`: the clamped limit against the node's
row count. -/
theorem listRecent_length (db : DB) (nodeId : String) (limit : Int) :
    (MetricStore.listRecentByNode db nodeId limit).length =
      min (max 1 (min 300 limit)).toNat
        ((db.metrics.filter (fun r => r.nodeId = nodeId)).length) := by
  simp [MetricStore.listRecentByNode, List.length_take, List.length_mergeSort]

/-- Transitivity of the descending comparison. -/
theorem newestFirst_trans (a b c : MetricRow) :
    newestFirst a b = true → newestFirst b c = true → newestFirst a c = true := by
  simp only [newestFirst, decide_eq_true_eq]
  omega

/-- Totality of the descending comparison. -/
theorem newestFirst_total (a b : MetricRow) :
    (newestFirst a b || newestFirst b a) = true := by
  simp only [newestFirst, Bool.or_eq_true, decide_eq_true_eq]
  omega

/-- C8: `ListRecentMetrics(nodeId, limit)` returns exactly
`min(max(1, limit), 300)` rows (capped by the node's row count), never more
than 300 — in particular at `limit = 0` and `limit = 10000` — oldest-first
(ascending `createdAt`, the reverse of the descending query), each row a
projection of one of the node's stored rows, and the kept rows dominate
every dropped row by `createdAt` (they are the newest). -/
theorem C8_listRecent_bound_order (db : DB) (nodeId : String) (limit : Int) :
    (MetricStore.listRecentByNode db nodeId limit).length =
      min (max 1 (min 300 limit)).toNat
        ((db.metrics.filter (fun r => r.nodeId = nodeId)).length) ∧
    (MetricStore.listRecentByNode db nodeId limit).length ≤ 300 ∧
    (MetricStore.listRecentByNode db nodeId 0).length ≤ 300 ∧
    (MetricStore.listRecentByNode db nodeId 10000).length ≤ 300 ∧
    (∀ d ∈ MetricStore.listRecentByNode db nodeId limit,
      ∃ r ∈ db.metrics, r.nodeId = nodeId ∧ d = r.toDto) ∧
    List.Pairwise (fun a b => a.at_ ≤ b.at_)
      (MetricStore.listRecentByNode db nodeId limit) ∧
    (∀ d ∈ MetricStore.listRecentByNode db nodeId limit,
      ∀ y ∈ ((db.metrics.filter (fun r => r.nodeId = nodeId)).mergeSort
          newestFirst).drop (max 1 (min 300 limit)).toNat,
        y.createdAt ≤ d.at_) := by
  have hlen := listRecent_length db nodeId limit
  have hcap : ∀ l : Int, (max 1 (min 300 l)).toNat ≤ 300 := by
    intro l; omega
  have hsorted : List.Pairwise (fun a b => newestFirst a b = true)
      ((db.metrics.filter (fun r => r.nodeId = nodeId)).mergeSort newestFirst) :=
    List.sorted_mergeSort newestFirst_trans newestFirst_total _
  refine ⟨hlen, ?_, ?_, ?_, ?_, ?_, ?_⟩
  · rw [hlen]; have := hcap limit; omega
  · rw [listRecent_length db nodeId 0]; have := hcap 0; omega
  · rw [listRecent_length db nodeId 10000]; have := hcap 10000; omega
  · intro d hd
    simp only [MetricStore.listRecentByNode, List.mem_map, List.mem_reverse] at hd
    obtain ⟨r, hr, rfl⟩ := hd
    have hr' : r ∈ (db.metrics.filter (fun x => x.nodeId = nodeId)).mergeSort
        newestFirst := List.take_subset _ _ hr
    rw [List.mem_mergeSort] at hr'
    rw [List.mem_filter] at hr'
    exact ⟨r, hr'.1, by simpa using hr'.2, rfl⟩
  · have htake : List.Pairwise (fun a b => newestFirst a b = true)
        (((db.metrics.filter (fun r => r.nodeId = nodeId)).mergeSort
          newestFirst).take (max 1 (min 300 limit)).toNat) :=
      hsorted.sublist (List.take_sublist _ _)
    have hrev : List.Pairwise (fun a b : MetricRow => a.createdAt ≤ b.createdAt)
        ((((db.metrics.filter (fun r => r.nodeId = nodeId)).mergeSort
          newestFirst).take (max 1 (min 300 limit)).toNat).reverse) := by
      rw [List.pairwise_reverse]
      exact htake.imp (by simp [newestFirst])
    unfold MetricStore.listRecentByNode
    rw [List.pairwise_map]
    exact hrev.imp (fun h => h)
  · intro d hd y hy
    simp only [MetricStore.listRecentByNode, List.mem_map, List.mem_reverse] at hd
    obtain ⟨r, hr, rfl⟩ := hd
    have hPW : List.Pairwise (fun a b => newestFirst a b = true)
        ((((db.metrics.filter (fun r => r.nodeId = nodeId)).mergeSort
            newestFirst).take (max 1 (min 300 limit)).toNat) ++
          (((db.metrics.filter (fun r => r.nodeId = nodeId)).mergeSort
            newestFirst).drop (max 1 (min 300 limit)).toNat)) := by
      rw [List.take_append_drop]
      exact hsorted
    have := (List.pairwise_append.mp hPW).2.2 r hr y hy
    simpa [newestFirst, MetricRow.toDto] using this

/-- C2: node-token round trip.  (1) After a successful `POST /nodes/create`
minting plaintext `freshNodeTok`, `POST /nodes/auth/exchange` with the
node's id and that plaintext succeeds and returns the broker coordinates
with `expiresAt: null`.  (2) For any presented plaintext whose SHA-256
differs from the stored `authTokenHash`, the exchange fails 401. -/
theorem C2_node_token_roundtrip (sha256hex : String → String) (env : MqttEnv)
    (db : DB) (now : Int) (authHeader : Option String) (name : String)
    (freshNodeId freshNodeTok : String) (s : SessionRow) (u : UserRow)
    (hauth : requireSessionFromAuthorization sha256hex db now authHeader =
      .ok (s, u))
    (hperm : sessionHasPermission db u.id "nodes:create" = true)
    (hname : ¬ jsTrim name = "")
    (hfresh : db.nodes.any (fun n => n.id = freshNodeId ∨
      n.authTokenHash = some (sha256hex freshNodeTok)) = false) :
    (∃ dbNext envF,
      createNodeRoute sha256hex db now authHeader (some name) freshNodeId
          freshNodeTok =
        (.created freshNodeId (some (jsTrim name)) now freshNodeTok envF, dbNext) ∧
      exchangeRoute sha256hex env dbNext (some freshNodeId) (some freshNodeTok) =
        .ok env.host env.port env.username env.password none) ∧
    (∀ db2 : DB, ∀ nodeId : String, ∀ node : NodeRow, ∀ stored presented : String,
      NodeStore.findById db2 nodeId = some node →
      node.authTokenHash = some stored →
      sha256hex presented ≠ stored →
      exchangeRoute sha256hex env db2 (some nodeId) (some presented) =
        .unauthorized "invalid node credentials") := by
  constructor
  · refine ⟨{ db with nodes := db.nodes ++
      [⟨freshNodeId, some (jsTrim name), now, now, now,
        some (sha256hex freshNodeTok), none, none, none⟩] },
      String.intercalate "\n"
        ["NODE_ID=" ++ freshNodeId,
         "NODE_TOKEN=" ++ freshNodeTok,
         "API_BASE_URL=http://127.0.0.1:3001",
         "NODE_AUTH_EXCHANGE_PATH=/nodes/auth/exchange",
         "NODE_METRICS_TOPIC=statix/nodes/\x7bnodeId\x7d/metrics",
         "NODE_SYSTEM_INFO_TOPIC=statix/nodes/\x7bnodeId\x7d/system",
         "PUBLISH_INTERVAL_MS=5000",
         "SYSTEM_INFO_CHECK_INTERVAL_MS=600000",
         "SYSTEM_INFO_REPUBLISH_INTERVAL_MS=86400000",
         "EXCHANGE_INTERVAL_MS=900000",
         "RECONNECT_DELAY_MS=3000",
         "MQTT_CONNECT_TIMEOUT_MS=8000"], ?_, ?_⟩
    · unfold createNodeRoute
      rw [hauth]
      simp only [hperm, Bool.true_eq_false, if_false, if_neg hname]
      have hfreshP : ¬ ∃ x ∈ db.nodes, x.id = freshNodeId ∨
          x.authTokenHash = some (sha256hex freshNodeTok) := by
        intro hx
        obtain ⟨x, hx1, hx2⟩ := hx
        have := List.any_eq_false.mp hfresh x hx1
        simp only [decide_eq_true_eq] at this
        exact this hx2
      unfold createNode Passwords.createNodeToken
      simp [hfreshP]
    · have hnone : db.nodes.find? (fun n => n.id = freshNodeId) = none := by
        rw [List.find?_eq_none]
        intro n hn
        have := (List.any_eq_false.mp hfresh) n hn
        simp only [decide_eq_true_eq] at this ⊢
        exact fun h => this (Or.inl h)
      unfold NodeStore.findById at hnone
      simp [exchangeRoute, NodeStore.findById, List.find?_append, hnone,
        Passwords.hashToken]
  · intro db2 nodeId node stored presented hfind htok hne
    simp [exchangeRoute, hfind, htok, Passwords.hashToken, hne]

/-- Concrete digest stand-in for witnesses (the theorems hold for every
digest function; the system instantiates SHA-256-hex). -/
def demoSha (s : String) : String := "#" ++ s

/-- Concrete user for the C2 witness: holds a role wired to the
`nodes:create` permission. -/
def c2user : UserRow :=
  ⟨"u1", "a@a.io", "a@a.io", some "PH", none, false, 0, none, none, none, none⟩

/-- Concrete active session of `c2user` (token plaintext `tok`). -/
def c2session : SessionRow :=
  ⟨"s1", "u1", demoSha "tok", 0, 10000, none, none, none, none⟩

/-- Concrete database for the C2 witness. -/
def c2db : DB :=
  { DB.empty with
    users := [c2user],
    sessions := [c2session],
    roles := [⟨"r1", "ops", none⟩],
    userRoles := [⟨"u1", "r1"⟩],
    permissions := [⟨"p1", "nodes:create", none⟩],
    rolePermissions := [⟨"r1", "p1"⟩] }

/-- Concrete broker environment for the C2 witness. -/
def c2env : MqttEnv := ⟨"127.0.0.1", 1883, "statix-node", "change-me-dev"⟩

/-- Concrete node with stored digest of plaintext `NT`, for the
mutated-token half of the C2 witness. -/
def c2node9 : NodeRow :=
  ⟨"n9", none, 0, 0, 0, some (demoSha "NT"), none, none, none⟩

/-- Concrete one-node database for the mutated-token half of the C2
witness. -/
def c2xdb : DB := { DB.empty with nodes := [c2node9] }

/-- Witness for C2 at a concrete input: create node `n9` with plaintext
`NT`, then exchange succeeds; and a mutated plaintext `NU` is rejected
401. -/
theorem C2_node_token_roundtrip_witness :
    (∃ dbNext envF,
      createNodeRoute demoSha c2db 5 (some "Bearer tok") (some "edge-1") "n9"
          "NT" =
        (.created "n9" (some "edge-1") 5 "NT" envF, dbNext) ∧
      exchangeRoute demoSha c2env dbNext (some "n9") (some "NT") =
        .ok "127.0.0.1" 1883 "statix-node" "change-me-dev" none) ∧
    exchangeRoute demoSha c2env c2xdb (some "n9") (some "NU") =
      .unauthorized "invalid node credentials" := by
  have h := C2_node_token_roundtrip demoSha c2env c2db 5 (some "Bearer tok")
    "edge-1" "n9" "NT" c2session c2user rfl (by decide) (by decide) (by decide)
  have htrim : jsTrim "edge-1" = "edge-1" := by decide
  refine ⟨?_, ?_⟩
  · have h1 := h.1
    rw [htrim] at h1
    simpa using h1
  · exact h.2 c2xdb "n9" c2node9 (demoSha "NT") "NU" (by decide) rfl (by decide)

/-- Concrete two-row database for the C8 witness. -/
def c8db : DB :=
  { DB.empty with
    nodes := [c4node],
    metrics := [⟨"n1", 10, 0, .finite 0, 0, 1, 0, 1, 0, 0⟩,
                ⟨"n1", 20, 0, .finite 0, 0, 1, 0, 1, 0, 0⟩] }

/-- Witness for C8 at a concrete input: `limit = 0` clamps to a single
row. -/
theorem C8_listRecent_bound_order_witness :
    (MetricStore.listRecentByNode c8db "n1" 0).length = 1 := by
  have h := (C8_listRecent_bound_order c8db "n1" 0).1
  rw [h]
  decide

/-- A topic never matches both patterns: the final segment is `system` in
one and `metrics` in the other. -/
theorem systemTopic_not_metricsTopic (topic : String) (nodeId : String)
    (h : parseNodeSystemInfoTopic topic = some nodeId) :
    parseNodeMetricsTopic topic = none := by
  unfold parseNodeSystemInfoTopic at h
  unfold parseNodeMetricsTopic
  cases hs : jsSplit topic '/' with
  | nil => simp
  | cons a l1 =>
    cases l1 with
    | nil => simp
    | cons b l2 =>
      cases l2 with
      | nil => simp
      | cons c l3 =>
        cases l3 with
        | nil => simp
        | cons d l4 =>
          cases l4 with
          | nil =>
            by_cases hc : a = "statix" ∧ b = "nodes" ∧ c ≠ "" ∧ d = "system"
            · obtain ⟨-, -, -, hd⟩ := hc
              have hnm : ¬ (a = "statix" ∧ b = "nodes" ∧ c ≠ "" ∧
                  d = "metrics") := by
                rintro ⟨-, -, -, hd2⟩
                rw [hd] at hd2
                exact absurd hd2 (by decide)
              simp [hnm]
            · rw [hs] at h
              simp [hc] at h
          | cons e l5 => simp

/-- C7: the ingest handler writes nothing and swallows every failure — an
unmatched topic, malformed JSON, a schema rejection, or a store error each
leave the state exactly as it was, and the handler is a total function (no
exception propagates). -/
theorem C7_ingest_drop (db : DB) (topic : String) (raw? : Option JsValue)
    (now : Int) :
    (parseNodeMetricsTopic topic = none → parseNodeSystemInfoTopic topic = none →
      handleMqttMessage db topic raw? now = db) ∧
    (raw? = none → handleMqttMessage db topic raw? now = db) ∧
    (∀ raw nodeId, raw? = some raw → parseNodeMetricsTopic topic = some nodeId →
      MetricsSchema.safeParse raw = none →
      handleMqttMessage db topic raw? now = db) ∧
    (∀ raw nodeId, raw? = some raw →
      parseNodeSystemInfoTopic topic = some nodeId →
      SystemInfoSchema.safeParse raw = none →
      handleMqttMessage db topic raw? now = db) ∧
    (∀ raw nodeId p, raw? = some raw →
      parseNodeMetricsTopic topic = some nodeId →
      MetricsSchema.safeParse raw = some p →
      MetricStore.appendNodeMetric db nodeId p now = none →
      handleMqttMessage db topic raw? now = db) ∧
    (∀ raw nodeId p, raw? = some raw →
      parseNodeSystemInfoTopic topic = some nodeId →
      SystemInfoSchema.safeParse raw = some p →
      SystemInfoStore.upsertNodeSystemInfo db nodeId p now = none →
      handleMqttMessage db topic raw? now = db) := by
  refine ⟨?_, ?_, ?_, ?_, ?_, ?_⟩
  · intro h1 h2
    simp [handleMqttMessage, h1, h2]
  · rintro rfl
    unfold handleMqttMessage
    cases parseNodeMetricsTopic topic <;> cases parseNodeSystemInfoTopic topic <;>
      simp
  · rintro raw nodeId rfl hm hp
    simp [handleMqttMessage, hm, hp]
  · rintro raw nodeId rfl hsys hp
    have hm := systemTopic_not_metricsTopic topic nodeId hsys
    simp [handleMqttMessage, hm, hsys, hp]
  · rintro raw nodeId p rfl hm hp hstore
    simp [handleMqttMessage, hm, hp, hstore]
  · rintro raw nodeId p rfl hsys hp hstore
    have hm := systemTopic_not_metricsTopic topic nodeId hsys
    simp [handleMqttMessage, hm, hsys, hp, hstore]

/-- Witness for C7 at a concrete input: a foreign topic is dropped without
any write, and a schema-invalid metrics payload on a matching topic is also
dropped. -/
theorem C7_ingest_drop_witness :
    handleMqttMessage c4db "other/topic" (some (.str "x")) 0 = c4db ∧
    handleMqttMessage c4db "statix/nodes/n1/metrics" (some (.str "x")) 0 =
      c4db ∧
    handleMqttMessage c4db "statix/nodes/n1/metrics" none 0 = c4db := by
  refine ⟨?_, ?_, ?_⟩
  · exact (C7_ingest_drop c4db "other/topic" (some (.str "x")) 0).1
      (by decide) (by decide)
  · exact (C7_ingest_drop c4db "statix/nodes/n1/metrics" (some (.str "x"))
      0).2.2.1 (.str "x") "n1" rfl (by decide) (by decide)
  · exact (C7_ingest_drop c4db "statix/nodes/n1/metrics" none 0).2.1 rfl

/-- C9: coalescing of the live-roster broadcast.  While a broadcast is
pending, `markNodesChanged` is a no-op (no second timer is ever scheduled);
otherwise it schedules exactly one broadcast 150 ms out without touching
the client set.  When the timer fires the pending flag clears first, the
snapshot is built once (`listNodes`) and that same frame goes to exactly
the `OPEN` sockets; a failed snapshot read sends nothing; in every case no
socket is removed from the client set. -/
theorem C9_roster_coalescing (st : RealtimeState) (now : Int)
    (dbRead : Option DB) :
    (st.broadcastTimer.isSome = true → markNodesChanged st now = st) ∧
    (st.broadcastTimer = none →
      (markNodesChanged st now).broadcastTimer = some (now + 150) ∧
      (markNodesChanged st now).clients = st.clients) ∧
    ((fireBroadcastTimer st dbRead).1.clients = st.clients) ∧
    ((fireBroadcastTimer st dbRead).1.broadcastTimer = none) ∧
    (dbRead = none → (fireBroadcastTimer st dbRead).2 = []) ∧
    (∀ db, dbRead = some db → st.clients ≠ [] →
      (fireBroadcastTimer st dbRead).2 =
        (st.clients.filter (fun c => c.readyState = .OPEN)).map
          (fun c => (c.sid, listNodes db))) ∧
    (∀ db, dbRead = some db → ∀ x ∈ (fireBroadcastTimer st dbRead).2,
      x.2 = listNodes db ∧
      ∃ c ∈ st.clients, c.readyState = .OPEN ∧ x.1 = c.sid) := by
  have hfst : (fireBroadcastTimer st dbRead).1 =
      { st with broadcastTimer := none } := by
    unfold fireBroadcastTimer broadcastSnapshot
    by_cases hc : st.clients.length = 0
    · simp [hc]
    · simp only [hc, if_false]
      cases dbRead <;> simp
  refine ⟨?_, ?_, ?_, ?_, ?_, ?_, ?_⟩
  · intro h
    simp [markNodesChanged, h]
  · intro h
    simp [markNodesChanged, h]
  · rw [hfst]
  · rw [hfst]
  · rintro rfl
    unfold fireBroadcastTimer broadcastSnapshot
    by_cases hc : st.clients.length = 0 <;> simp [hc]
  · rintro db rfl hne
    have hc : ¬ st.clients.length = 0 := fun h => hne (List.length_eq_zero.mp h)
    unfold fireBroadcastTimer broadcastSnapshot
    simp [hc]
  · rintro db rfl x hx
    unfold fireBroadcastTimer broadcastSnapshot at hx
    by_cases hc : st.clients.length = 0
    · simp [hc] at hx
    · simp only [hc, if_false] at hx
      simp only [List.mem_map, List.mem_filter] at hx
      obtain ⟨c, ⟨hcm, hopen⟩, rfl⟩ := hx
      exact ⟨rfl, c, hcm, by simpa using hopen, rfl⟩

/-- Witness for C9 at a concrete input: with a pending timer a second
`markNodesChanged` changes nothing, and a failed snapshot read keeps both
clients. -/
theorem C9_roster_coalescing_witness :
    markNodesChanged ⟨[⟨1, .OPEN⟩, ⟨2, .CLOSED⟩], some 150⟩ 40 =
      ⟨[⟨1, .OPEN⟩, ⟨2, .CLOSED⟩], some 150⟩ ∧
    (fireBroadcastTimer ⟨[⟨1, .OPEN⟩, ⟨2, .CLOSED⟩], some 150⟩ none).1.clients =
      [⟨1, .OPEN⟩, ⟨2, .CLOSED⟩] ∧
    (fireBroadcastTimer ⟨[⟨1, .OPEN⟩, ⟨2, .CLOSED⟩], some 150⟩ none).2 = [] := by
  refine ⟨?_, ?_, ?_⟩
  · exact (C9_roster_coalescing ⟨[⟨1, .OPEN⟩, ⟨2, .CLOSED⟩], some 150⟩ 40
      none).1 rfl
  · exact (C9_roster_coalescing ⟨[⟨1, .OPEN⟩, ⟨2, .CLOSED⟩], some 150⟩ 40
      none).2.2.1
  · exact (C9_roster_coalescing ⟨[⟨1, .OPEN⟩, ⟨2, .CLOSED⟩], some 150⟩ 40
      none).2.2.2.2.1 rfl

/-- C3: login error behaviour.  The three failure modes — unknown email,
shell user (`passwordHash IS NULL`), and failed verification — produce the
identical opaque 401 `"invalid credentials"`; `failedLoginCount` is
incremented exactly in the verify-fail case; a verified-but-disabled user
gets 403; on success a fresh Session row (digest only) is appended,
`failedLoginCount` resets to 0, `lastLoginAt`/`lastLoginIp` are set, and
the bearer plaintext, expiry and user snapshot are returned. -/
theorem C3_login_spec (sha256hex : String → String)
    (verify : String → String → Bool) (isEmail : String → Bool) (db : DB)
    (now : Int) (freshSessionId freshSessionTok : String)
    (ip userAgent : Option String) (email? password? : Option String) :
    (parseEmail isEmail email? = none ∨ password? = none →
      loginRoute sha256hex verify isEmail db now freshSessionId
          freshSessionTok ip userAgent email? password? =
        (.badRequest "email and password are required", db)) ∧
    (∀ pe pw, parseEmail isEmail email? = some pe → password? = some pw →
      UserStore.findByEmail db (normalizeEmail pe) = none →
      loginRoute sha256hex verify isEmail db now freshSessionId
          freshSessionTok ip userAgent email? password? =
        (.unauthorized "invalid credentials", db)) ∧
    (∀ pe pw user, parseEmail isEmail email? = some pe → password? = some pw →
      UserStore.findByEmail db (normalizeEmail pe) = some user →
      user.passwordHash = none →
      loginRoute sha256hex verify isEmail db now freshSessionId
          freshSessionTok ip userAgent email? password? =
        (.unauthorized "invalid credentials", db)) ∧
    (∀ pe pw user ph, parseEmail isEmail email? = some pe →
      password? = some pw →
      UserStore.findByEmail db (normalizeEmail pe) = some user →
      user.passwordHash = some ph → verify pw ph = false →
      loginRoute sha256hex verify isEmail db now freshSessionId
          freshSessionTok ip userAgent email? password? =
        (.unauthorized "invalid credentials",
          UserStore.recordLoginFailure db user.id) ∧
      (∀ x ∈ db.users, x.id = user.id →
        ({ x with failedLoginCount := x.failedLoginCount + 1 } : UserRow) ∈
          (UserStore.recordLoginFailure db user.id).users) ∧
      (∀ x ∈ db.users, x.id ≠ user.id →
        x ∈ (UserStore.recordLoginFailure db user.id).users) ∧
      (UserStore.recordLoginFailure db user.id).sessions = db.sessions) ∧
    (∀ pe pw user ph, parseEmail isEmail email? = some pe →
      password? = some pw →
      UserStore.findByEmail db (normalizeEmail pe) = some user →
      user.passwordHash = some ph → verify pw ph = true →
      user.isDisabled = true →
      loginRoute sha256hex verify isEmail db now freshSessionId
          freshSessionTok ip userAgent email? password? =
        (.forbidden "account disabled", db)) ∧
    (∀ pe pw user ph, parseEmail isEmail email? = some pe →
      password? = some pw →
      UserStore.findByEmail db (normalizeEmail pe) = some user →
      user.passwordHash = some ph → verify pw ph = true →
      user.isDisabled = false →
      db.sessions.any (fun s => s.tokenHash = sha256hex freshSessionTok ∨
        s.id = freshSessionId) = false →
      ∃ db2, loginRoute sha256hex verify isEmail db now freshSessionId
          freshSessionTok ip userAgent email? password? =
        (.ok freshSessionTok (now + 7 * 24 * 60 * 60 * 1000) user.id
          user.email user.displayName (roleNamesOfUser db user.id), db2) ∧
        (∃ s ∈ db2.sessions, s.tokenHash = sha256hex freshSessionTok ∧
          s.userId = user.id ∧
          s.expiresAt = now + 7 * 24 * 60 * 60 * 1000 ∧ s.revokedAt = none ∧
          s ∉ db.sessions) ∧
        db2.sessions.length = db.sessions.length + 1 ∧
        (∀ x ∈ db2.users, x.id = user.id → x.failedLoginCount = 0 ∧
          x.lastLoginAt = some now ∧ x.lastLoginIp = ip)) := by
  refine ⟨?_, ?_, ?_, ?_, ?_, ?_⟩
  · intro h
    unfold loginRoute
    rcases h with h | h
    · rw [h]
    · rw [h]
      cases hp : parseEmail isEmail email? <;> rfl
  · intro pe pw hpe hpw hfind
    unfold loginRoute
    rw [hpe, hpw]
    dsimp only
    rw [hfind]
  · intro pe pw user hpe hpw hfind hph
    unfold loginRoute
    rw [hpe, hpw]
    dsimp only
    rw [hfind]
    dsimp only
    rw [hph]
  · intro pe pw user ph hpe hpw hfind hph hv
    refine ⟨?_, ?_, ?_, rfl⟩
    · unfold loginRoute
      rw [hpe, hpw]
      dsimp only
      rw [hfind]
      dsimp only
      rw [hph]
      dsimp only
      rw [hv]
      simp
    · intro x hx hid
      unfold UserStore.recordLoginFailure
      simp only [List.mem_map]
      exact ⟨x, hx, by simp [hid]⟩
    · intro x hx hid
      unfold UserStore.recordLoginFailure
      simp only [List.mem_map]
      exact ⟨x, hx, by simp [hid]⟩
  · intro pe pw user ph hpe hpw hfind hph hv hdis
    unfold loginRoute
    rw [hpe, hpw]
    dsimp only
    rw [hfind]
    dsimp only
    rw [hph]
    dsimp only
    rw [hv, hdis]
    simp
  · intro pe pw user ph hpe hpw hfind hph hv hdis hfresh
    unfold loginRoute
    rw [hpe, hpw]
    dsimp only
    rw [hfind]
    dsimp only
    rw [hph]
    dsimp only
    rw [hv, hdis]
    simp only [Bool.true_eq_false, if_false, Bool.false_eq_true]
    unfold Sessions.createSession SessionStore.createSession
    dsimp only
    simp only [hfresh, Bool.false_eq_true, if_false]
    refine ⟨UserStore.recordLoginSuccess { db with
        sessions := db.sessions ++
          [⟨freshSessionId, user.id, sha256hex freshSessionTok, now,
            now + 7 * 24 * 60 * 60 * 1000, none, none, ip, userAgent⟩] }
      user.id ip now, rfl, ?_, ?_, ?_⟩
    · refine ⟨⟨freshSessionId, user.id, sha256hex freshSessionTok, now,
        now + 7 * 24 * 60 * 60 * 1000, none, none, ip, userAgent⟩, ?_, rfl,
        rfl, rfl, rfl, ?_⟩
      · simp [UserStore.recordLoginSuccess]
      · intro hmem
        have := (List.any_eq_false.mp hfresh) _ hmem
        simp at this
    · simp [UserStore.recordLoginSuccess]
    · intro x hx hid
      simp only [UserStore.recordLoginSuccess, List.mem_map,
        List.mem_append] at hx
      obtain ⟨a, ha, rfl⟩ := hx
      by_cases haid : a.id = user.id
      · simp [haid]
      · simp_all

/-- Concrete verifier for the C3 witness: accepts exactly
(`good`, `PH`). -/
def c3verify (pw h : String) : Bool := pw = "good" && h = "PH"

/-- Concrete database for the C3 witness (one credentialed user). -/
def c3db : DB :=
  { DB.empty with
    users := [c2user],
    roles := [⟨"r1", "ops", none⟩],
    userRoles := [⟨"u1", "r1"⟩] }

/-- Witness for C3 at a concrete input: a wrong password yields the opaque
401 and increments the counter; the right password yields the bearer with
its expiry and snapshot. -/
theorem C3_login_spec_witness :
    loginRoute demoSha c3verify (fun _ => true) c3db 0 "s9" "stok" none none
      (some "a@a.io") (some "bad") =
      (.unauthorized "invalid credentials",
        UserStore.recordLoginFailure c3db c2user.id) ∧
    ∃ db2, loginRoute demoSha c3verify (fun _ => true) c3db 0 "s9" "stok"
      none none (some "a@a.io") (some "good") =
      (.ok "stok" 604800000 "u1" "a@a.io" none (roleNamesOfUser c3db "u1"),
        db2) := by
  constructor
  · exact ((C3_login_spec demoSha c3verify (fun _ => true) c3db 0 "s9" "stok"
      none none (some "a@a.io") (some "bad")).2.2.2.1 "a@a.io" "bad" c2user
      "PH" (by decide) rfl (by decide) rfl (by decide)).1
  · obtain ⟨db2, heq, -⟩ :=
      (C3_login_spec demoSha c3verify (fun _ => true) c3db 0 "s9" "stok"
        none none (some "a@a.io") (some "good")).2.2.2.2.2 "a@a.io" "good"
        c2user "PH" (by decide) rfl (by decide) rfl (by decide) rfl
        (by decide)
    exact ⟨db2, by simpa using heq⟩

/-- C1 counterexample: the bootstrap prestart persists the freshly minted
reset-token plaintext inside the `AuthToken` row itself
(`metadata.bootstrapToken`), alongside its digest — so a reachable state
contains a plaintext minted secret in an `AuthToken` row. -/
theorem C1_counterexample :
    ∃ dbOut, runPrestart demoSha DB.empty 0 "bu" "br" "bt" "tok0" =
        some dbOut ∧
      ∃ t ∈ dbOut.authTokens,
        t.metadata = some (.obj [("bootstrapToken", .str "tok0")]) ∧
        bootstrapTokenOfMeta t.metadata = some "tok0" ∧
        t.tokenHash = demoSha "tok0" ∧ "tok0" ≠ demoSha "tok0" := by
  refine ⟨_, rfl, ⟨"bt", "bu", .RESET_PASSWORD, demoSha "tok0", 0, 3600000,
    none, some (.obj [("bootstrapToken", .str "tok0")])⟩, ?_, rfl, rfl, rfl,
    by decide⟩
  simp only [runPrestart, runPrestartWithAdmin,
    UserStore.hasCredentialedAdminExcludingEmail,
    AuthTokenStore.rotateResetTokenWithMetadata, List.mem_append,
    List.mem_singleton, AuthTokenRow.mk.injEq]
  right
  simp [Passwords.resetPasswordToken]

/-- Role upsert leaves the token table untouched. -/
theorem ensureRole_authTokens (db : DB) (fid nm : String) (d : Option String) :
    (RoleStore.ensureRole db fid nm d).2.authTokens = db.authTokens := by
  unfold RoleStore.ensureRole
  cases db.roles.find? (fun r => r.name = nm) <;> rfl

/-- Role assignment leaves the token table untouched. -/
theorem assignRole_authTokens (db : DB) (uid rid : String) :
    (RoleStore.assignRole db uid rid).authTokens = db.authTokens := by
  unfold RoleStore.assignRole
  by_cases h : db.userRoles.any (fun ur => ur.userId = uid ∧ ur.roleId = rid) =
    true
  · rw [if_pos h]
  · rw [if_neg h]

/-- New sessions minted by a login store only the digest: every session row
in the post-state is either pre-existing or carries
`tokenHash = sha256hex fstok`. -/
theorem login_sessions_store_digest (sha256hex : String → String)
    (verify : String → String → Bool) (isEmail : String → Bool) (db : DB)
    (now : Int) (fsid fstok : String) (ip ua email? password? : Option String)
    (res : LoginResult) (db' : DB)
    (h : loginRoute sha256hex verify isEmail db now fsid fstok ip ua email?
      password? = (res, db')) :
    ∀ s ∈ db'.sessions, s ∈ db.sessions ∨ s.tokenHash = sha256hex fstok := by
  unfold loginRoute at h
  cases hpe : parseEmail isEmail email? with
  | none =>
    rw [hpe] at h
    injection h with h1 h2
    subst h2
    exact fun s hs => Or.inl hs
  | some pe =>
    rw [hpe] at h
    cases hpw : password? with
    | none =>
      rw [hpw] at h
      injection h with h1 h2
      subst h2
      exact fun s hs => Or.inl hs
    | some pw =>
      rw [hpw] at h
      try dsimp only at h
      cases hfind : UserStore.findByEmail db (normalizeEmail pe) with
      | none =>
        rw [hfind] at h
        injection h with h1 h2
        subst h2
        exact fun s hs => Or.inl hs
      | some user =>
        rw [hfind] at h
        try dsimp only at h
        cases hph : user.passwordHash with
        | none =>
          rw [hph] at h
          injection h with h1 h2
          subst h2
          exact fun s hs => Or.inl hs
        | some ph =>
          rw [hph] at h
          try dsimp only at h
          by_cases hv : verify pw ph = false
          · rw [if_pos hv] at h
            injection h with h1 h2
            subst h2
            exact fun s hs => Or.inl hs
          · rw [if_neg hv] at h
            by_cases hdis : user.isDisabled = true
            · rw [if_pos hdis] at h
              injection h with h1 h2
              subst h2
              exact fun s hs => Or.inl hs
            · rw [if_neg hdis] at h
              try dsimp only at h
              unfold SessionStore.createSession at h
              by_cases hfr : db.sessions.any (fun s =>
                  s.tokenHash = sha256hex fstok ∨ s.id = fsid) = true
              · rw [if_pos (by simpa [Sessions.createSession] using hfr)] at h
                injection h with h1 h2
                subst h2
                exact fun s hs => Or.inl hs
              · rw [if_neg (by simpa [Sessions.createSession] using hfr)] at h
                try dsimp only at h
                injection h with h1 h2
                subst h2
                intro s hs
                simp only [UserStore.recordLoginSuccess] at hs
                rcases List.mem_append.mp hs with hs | hs
                · exact Or.inl hs
                · rw [List.mem_singleton] at hs
                  subst hs
                  exact Or.inr rfl

/-- Setup tokens minted by `POST /auth/users` store only the digest and no
metadata: every auth-token row in the post-state is either pre-existing or
carries `tokenHash = sha256hex ftok` with empty metadata. -/
theorem createUser_tokens_store_digest (sha256hex : String → String)
    (isEmail : String → Bool) (db : DB) (now : Int)
    (authHeader email? displayName? : Option String)
    (fuid frid ftid ftok : String) (res : CreateUserResult) (db' : DB)
    (h : createUserRoute sha256hex isEmail db now authHeader email?
      displayName? fuid frid ftid ftok = (res, db')) :
    ∀ t ∈ db'.authTokens, t ∈ db.authTokens ∨
      (t.tokenHash = sha256hex ftok ∧ t.metadata = none) := by
  unfold createUserRoute at h
  cases hA : requireAdminSession sha256hex db now authHeader with
  | error e =>
    rw [hA] at h
    injection h with h1 h2
    subst h2
    exact fun t ht => Or.inl ht
  | ok su =>
    rw [hA] at h
    try dsimp only at h
    cases hpe : parseEmail isEmail email? with
    | none =>
      rw [hpe] at h
      injection h with h1 h2
      subst h2
      exact fun t ht => Or.inl ht
    | some email =>
      rw [hpe] at h
      try dsimp only at h
      cases hcs : UserStore.createShellUser db fuid email displayName? with
      | none =>
        rw [hcs] at h
        injection h with h1 h2
        subst h2
        exact fun t ht => Or.inl ht
      | some p =>
        rw [hcs] at h
        obtain ⟨newUser, db1⟩ := p
        try dsimp only at h
        have hdb1 : db1.authTokens = db.authTokens := by
          unfold UserStore.createShellUser at hcs
          by_cases hdup : db.users.any (fun u =>
              u.emailNormalized = jsToLower (jsTrim email) ∨ u.id = fuid) = true
          · rw [if_pos hdup] at hcs
            exact absurd hcs (by simp)
          · rw [if_neg hdup] at hcs
            dsimp only at hcs
            injection hcs with hcs'
            injection hcs' with hcs1 hcs2
            rw [← hcs2]
        have hdb2 : (RoleStore.assignRole
            (RoleStore.ensureRole db1 frid "user" (some "Default user role")).2
            newUser.id
            (RoleStore.ensureRole db1 frid "user"
              (some "Default user role")).1.id).authTokens = db.authTokens := by
          rw [assignRole_authTokens, ensureRole_authTokens, hdb1]
        cases hrot : AuthTokenStore.rotateResetToken
            (RoleStore.assignRole
              (RoleStore.ensureRole db1 frid "user"
                (some "Default user role")).2 newUser.id
              (RoleStore.ensureRole db1 frid "user"
                (some "Default user role")).1.id)
            ftid newUser.id
            (Passwords.resetPasswordToken sha256hex ftok now).tokenHash
            (Passwords.resetPasswordToken sha256hex ftok now).expiresAt now with
        | none =>
          rw [hrot] at h
          injection h with h1 h2
          subst h2
          intro t ht
          rw [hdb2] at ht
          exact Or.inl ht
        | some q =>
          rw [hrot] at h
          obtain ⟨row, db3⟩ := q
          try dsimp only at h
          injection h with h1 h2
          subst h2
          intro t ht
          unfold AuthTokenStore.rotateResetToken
            AuthTokenStore.createResetToken at hrot
          by_cases hdup2 : (AuthTokenStore.deleteUnconsumedResetTokens
              (RoleStore.assignRole
                (RoleStore.ensureRole db1 frid "user"
                  (some "Default user role")).2 newUser.id
                (RoleStore.ensureRole db1 frid "user"
                  (some "Default user role")).1.id)
              newUser.id).authTokens.any (fun t =>
                t.tokenHash =
                  (Passwords.resetPasswordToken sha256hex ftok now).tokenHash ∨
                t.id = ftid) = true
          · rw [if_pos hdup2] at hrot
            exact absurd hrot (by simp)
          · rw [if_neg hdup2] at hrot
            dsimp only at hrot
            injection hrot with hrot'
            injection hrot' with hrot1 hrot2
            rw [← hrot2] at ht
            simp only [AuthTokenStore.deleteUnconsumedResetTokens] at ht
            rcases List.mem_append.mp ht with ht | ht
            · rw [hdb2] at ht
              exact Or.inl (List.mem_of_mem_filter ht)
            · rw [List.mem_singleton] at ht
              subst ht
              exact Or.inr ⟨rfl, rfl⟩

/-- Nodes minted by `POST /nodes/create` store only the digest: every node
row in the post-state is either pre-existing or carries
`authTokenHash = some (sha256hex fntok)`. -/
theorem createNode_stores_digest (sha256hex : String → String) (db : DB)
    (now : Int) (authHeader name? : Option String) (fnid fntok : String)
    (res : CreateNodeResult) (db' : DB)
    (h : createNodeRoute sha256hex db now authHeader name? fnid fntok =
      (res, db')) :
    ∀ n ∈ db'.nodes, n ∈ db.nodes ∨
      n.authTokenHash = some (sha256hex fntok) := by
  unfold createNodeRoute at h
  cases hA : requireSessionFromAuthorization sha256hex db now authHeader with
  | error e =>
    rw [hA] at h
    try dsimp only at h
    injection h with h1 h2
    subst h2
    exact fun n hn => Or.inl hn
  | ok su =>
    obtain ⟨s, u⟩ := su
    rw [hA] at h
    try dsimp only at h
    by_cases hperm : sessionHasPermission db u.id "nodes:create" = false
    · rw [if_pos hperm] at h
      injection h with h1 h2
      subst h2
      exact fun n hn => Or.inl hn
    · rw [if_neg hperm] at h
      cases hname : name? with
      | none =>
        rw [hname] at h
        injection h with h1 h2
        subst h2
        exact fun n hn => Or.inl hn
      | some name =>
        rw [hname] at h
        try dsimp only at h
        by_cases htrim : jsTrim name = ""
        · rw [if_pos htrim] at h
          injection h with h1 h2
          subst h2
          exact fun n hn => Or.inl hn
        · rw [if_neg htrim] at h
          try dsimp only at h
          cases hcn : createNode db fnid (some (jsTrim name))
              (Passwords.createNodeToken sha256hex fntok).2 now with
          | none =>
            rw [hcn] at h
            injection h with h1 h2
            subst h2
            exact fun n hn => Or.inl hn
          | some p =>
            rw [hcn] at h
            obtain ⟨node, db1⟩ := p
            try dsimp only at h
            injection h with h1 h2
            subst h2
            intro n hn
            unfold createNode at hcn
            by_cases hdup : db.nodes.any (fun x => x.id = fnid ∨
                x.authTokenHash =
                  some (Passwords.createNodeToken sha256hex fntok).2) = true
            · rw [if_pos hdup] at hcn
              exact absurd hcn (by simp)
            · rw [if_neg hdup] at hcn
              try dsimp only at hcn
              injection hcn with hcn'
              injection hcn' with hcn1 hcn2
              rw [← hcn2] at hn
              rcases List.mem_append.mp hn with hn | hn
              · exact Or.inl hn
              · rw [List.mem_singleton] at hn
                subst hn
                exact Or.inr rfl

/-- The minting tail of the prestart: the rotated bootstrap token row is
the only addition to the token table, carrying the digest in `tokenHash`
and the plaintext in `metadata.bootstrapToken`. -/
theorem prestart_mint_case (sha256hex : String → String) (db1 db0 : DB)
    (now : Int) (ftid ftok uid : String) (db' : DB)
    (hdb1 : db1.authTokens = db0.authTokens)
    (h : Option.map (fun r => r.2)
        (AuthTokenStore.rotateResetTokenWithMetadata db1 ftid uid
          (Passwords.resetPasswordToken sha256hex ftok now).tokenHash
          (Passwords.resetPasswordToken sha256hex ftok now).expiresAt now
          (JsValue.obj [("bootstrapToken",
            JsValue.str (Passwords.resetPasswordToken sha256hex ftok
              now).token)])) = some db') :
    ∀ t ∈ db'.authTokens, t ∈ db0.authTokens ∨
      (t.tokenHash = sha256hex ftok ∧
        t.metadata = some (.obj [("bootstrapToken", .str ftok)])) := by
  cases hrot : AuthTokenStore.rotateResetTokenWithMetadata db1 ftid uid
      (Passwords.resetPasswordToken sha256hex ftok now).tokenHash
      (Passwords.resetPasswordToken sha256hex ftok now).expiresAt now
      (JsValue.obj [("bootstrapToken",
        JsValue.str (Passwords.resetPasswordToken sha256hex ftok
          now).token)]) with
  | none =>
    rw [hrot] at h
    exact absurd h (by simp)
  | some q =>
    rw [hrot] at h
    obtain ⟨row, db3⟩ := q
    try dsimp only at h
    injection h with h2
    subst h2
    intro t ht
    unfold AuthTokenStore.rotateResetTokenWithMetadata at hrot
    by_cases hdup : (AuthTokenStore.deleteUnconsumedResetTokens db1
        uid).authTokens.any (fun t =>
          t.tokenHash = (Passwords.resetPasswordToken sha256hex
            ftok now).tokenHash ∨ t.id = ftid) = true
    · rw [if_pos hdup] at hrot
      exact absurd hrot (by simp)
    · rw [if_neg hdup] at hrot
      try dsimp only at hrot
      injection hrot with hrot2
      injection hrot2 with hra hrb
      rw [← hrb] at ht
      simp only [AuthTokenStore.deleteUnconsumedResetTokens] at ht
      rcases List.mem_append.mp ht with ht | ht
      · exact Or.inl (hdb1 ▸ List.mem_of_mem_filter ht)
      · rw [List.mem_singleton] at ht
        subst ht
        exact Or.inr ⟨rfl, rfl⟩

/-- The with-admin tail of the prestart: every auth-token row afterwards is
either pre-existing (relative to a base table `db0`) or is the freshly
minted bootstrap token — digest in `tokenHash`, plaintext in
`metadata.bootstrapToken`. -/
theorem prestartWithAdmin_tokens (sha256hex : String → String)
    (dbIn db0 : DB) (now : Int) (frid ftid ftok : String)
    (adminUser : UserRow) (db' : DB)
    (hbase : dbIn.authTokens = db0.authTokens)
    (h : runPrestartWithAdmin sha256hex dbIn now frid ftid ftok adminUser =
      some db') :
    ∀ t ∈ db'.authTokens, t ∈ db0.authTokens ∨
      (t.tokenHash = sha256hex ftok ∧
        t.metadata = some (.obj [("bootstrapToken", .str ftok)])) := by
  unfold runPrestartWithAdmin at h
  by_cases hpw : adminUser.passwordHash.isSome = true
  · rw [if_pos hpw] at h
    injection h with h2
    subst h2
    intro t ht
    rw [hbase] at ht
    exact Or.inl ht
  · rw [if_neg hpw] at h
    try dsimp only at h
    have hdb1 : (RoleStore.assignRole
        (RoleStore.ensureRole dbIn frid "admin"
          (some "Full administrative access")).2 adminUser.id
        (RoleStore.ensureRole dbIn frid "admin"
          (some "Full administrative access")).1.id).authTokens =
        db0.authTokens := by
      rw [assignRole_authTokens, ensureRole_authTokens, hbase]
    cases hex : AuthTokenStore.findActiveResetTokenByUser
        (RoleStore.assignRole
          (RoleStore.ensureRole dbIn frid "admin"
            (some "Full administrative access")).2 adminUser.id
          (RoleStore.ensureRole dbIn frid "admin"
            (some "Full administrative access")).1.id)
        adminUser.id now with
    | some t0 =>
      rw [hex] at h
      try simp only [Option.some_bind] at h
      cases hbt : bootstrapTokenOfMeta t0.metadata with
      | some bt =>
        rw [hbt] at h
        injection h with h2
        subst h2
        intro t ht
        rw [hdb1] at ht
        exact Or.inl ht
      | none =>
        rw [hbt] at h
        exact prestart_mint_case sha256hex _ db0 now ftid ftok
          adminUser.id db' hdb1 h
    | none =>
      rw [hex] at h
      try dsimp only at h
      exact prestart_mint_case sha256hex _ db0 now ftid ftok
        adminUser.id db' hdb1 h

/-- Prestart: every auth-token row in the post-state is either pre-existing
or the freshly minted bootstrap token (digest in `tokenHash`, plaintext in
`metadata.bootstrapToken`). -/
theorem prestart_tokens (sha256hex : String → String) (db : DB) (now : Int)
    (fuid frid ftid ftok : String) (db' : DB)
    (h : runPrestart sha256hex db now fuid frid ftid ftok = some db') :
    ∀ t ∈ db'.authTokens, t ∈ db.authTokens ∨
      (t.tokenHash = sha256hex ftok ∧
        t.metadata = some (.obj [("bootstrapToken", .str ftok)])) := by
  unfold runPrestart at h
  by_cases hadm : UserStore.hasCredentialedAdminExcludingEmail db
      (jsToLower BOOTSTRAP_EMAIL) = true
  · rw [if_pos hadm] at h
    cases hf : UserStore.findByEmail db (jsToLower BOOTSTRAP_EMAIL) with
    | some bu =>
      rw [hf] at h
      try dsimp only at h
      injection h with h2
      subst h2
      intro t ht
      exact Or.inl (List.mem_of_mem_filter ht)
    | none =>
      rw [hf] at h
      injection h with h2
      subst h2
      exact fun t ht => Or.inl ht
  · rw [if_neg hadm] at h
    cases hf : UserStore.findByEmail db (jsToLower BOOTSTRAP_EMAIL) with
    | some adminUser =>
      rw [hf] at h
      exact prestartWithAdmin_tokens sha256hex db db now frid ftid ftok
        adminUser db' rfl h
    | none =>
      rw [hf] at h
      try dsimp only at h
      cases hcs : UserStore.createShellUser db fuid BOOTSTRAP_EMAIL
          (some "Admin") with
      | none =>
        rw [hcs] at h
        exact absurd h (by simp)
      | some p =>
        rw [hcs] at h
        obtain ⟨created, db1⟩ := p
        try dsimp only at h
        have hdb1 : db1.authTokens = db.authTokens := by
          unfold UserStore.createShellUser at hcs
          by_cases hdup : db.users.any (fun u =>
              u.emailNormalized = jsToLower (jsTrim BOOTSTRAP_EMAIL) ∨
              u.id = fuid) = true
          · rw [if_pos hdup] at hcs
            exact absurd hcs (by simp)
          · rw [if_neg hdup] at hcs
            try dsimp only at hcs
            injection hcs with hcs2
            injection hcs2 with hca hcb
            rw [← hcb]
        cases hfid : UserStore.findById db1 created.id with
        | none =>
          rw [hfid] at h
          exact absurd h (by simp)
        | some adminUser =>
          rw [hfid] at h
          exact prestartWithAdmin_tokens sha256hex db1 db now frid ftid ftok
            adminUser db' hdb1 h

/-- C1 (amended): every operation that mints a token stores only the
SHA-256 digest of the minted plaintext in the row's hash column
(`Session.tokenHash` on login, `AuthToken.tokenHash` for the CreateUser
setup token and the bootstrap prestart, `Node.authTokenHash` on
CreateNode) — except that the bootstrap prestart additionally persists the
minted plaintext in the created `AuthToken` row's
`metadata.bootstrapToken`. -/
theorem C1_minted_secrets_hashed :
    (∀ (sha256hex : String → String) (verify : String → String → Bool)
        (isEmail : String → Bool) (db : DB) (now : Int)
        (fsid fstok : String) (ip ua email? password? : Option String)
        (res : LoginResult) (db' : DB),
      loginRoute sha256hex verify isEmail db now fsid fstok ip ua email?
          password? = (res, db') →
      ∀ s ∈ db'.sessions, s ∈ db.sessions ∨
        s.tokenHash = sha256hex fstok) ∧
    (∀ (sha256hex : String → String) (isEmail : String → Bool) (db : DB)
        (now : Int) (authHeader email? displayName? : Option String)
        (fuid frid ftid ftok : String) (res : CreateUserResult) (db' : DB),
      createUserRoute sha256hex isEmail db now authHeader email? displayName?
          fuid frid ftid ftok = (res, db') →
      ∀ t ∈ db'.authTokens, t ∈ db.authTokens ∨
        (t.tokenHash = sha256hex ftok ∧ t.metadata = none)) ∧
    (∀ (sha256hex : String → String) (db : DB) (now : Int)
        (authHeader name? : Option String) (fnid fntok : String)
        (res : CreateNodeResult) (db' : DB),
      createNodeRoute sha256hex db now authHeader name? fnid fntok =
          (res, db') →
      ∀ n ∈ db'.nodes, n ∈ db.nodes ∨
        n.authTokenHash = some (sha256hex fntok)) ∧
    (∀ (sha256hex : String → String) (db : DB) (now : Int)
        (fuid frid ftid ftok : String) (db' : DB),
      runPrestart sha256hex db now fuid frid ftid ftok = some db' →
      ∀ t ∈ db'.authTokens, t ∈ db.authTokens ∨
        (t.tokenHash = sha256hex ftok ∧
          t.metadata = some (.obj [("bootstrapToken", .str ftok)]))) := by
  refine ⟨?_, ?_, ?_, ?_⟩
  · intro sha256hex verify isEmail db now fsid fstok ip ua email? password?
      res db' h
    exact login_sessions_store_digest sha256hex verify isEmail db now fsid
      fstok ip ua email? password? res db' h
  · intro sha256hex isEmail db now authHeader email? displayName? fuid frid
      ftid ftok res db' h
    exact createUser_tokens_store_digest sha256hex isEmail db now authHeader
      email? displayName? fuid frid ftid ftok res db' h
  · intro sha256hex db now authHeader name? fnid fntok res db' h
    exact createNode_stores_digest sha256hex db now authHeader name? fnid
      fntok res db' h
  · intro sha256hex db now fuid frid ftid ftok db' h
    exact prestart_tokens sha256hex db now fuid frid ftid ftok db' h

/-- Witness for C1 (amended) at concrete inputs: the login of the C3
witness adds only digest-hashed sessions; the node-create of the C2 witness
stores only the digest; and the prestart run of the counterexample adds
only the bootstrap row (digest plus the metadata exception). -/
theorem C1_minted_secrets_hashed_witness :
    (∀ s ∈ (loginRoute demoSha c3verify (fun _ => true) c3db 0 "s9" "stok"
        none none (some "a@a.io") (some "good")).2.sessions,
      s ∈ c3db.sessions ∨ s.tokenHash = demoSha "stok") ∧
    (∀ n ∈ (createNodeRoute demoSha c2db 5 (some "Bearer tok")
        (some "edge-1") "n9" "NT").2.nodes,
      n ∈ c2db.nodes ∨ n.authTokenHash = some (demoSha "NT")) ∧
    (∃ dbOut, runPrestart demoSha DB.empty 0 "bu" "br" "bt" "tok0" =
        some dbOut ∧
      ∀ t ∈ dbOut.authTokens, t ∈ DB.empty.authTokens ∨
        (t.tokenHash = demoSha "tok0" ∧
          t.metadata = some (.obj [("bootstrapToken", .str "tok0")]))) := by
  refine ⟨?_, ?_, ?_⟩
  · exact C1_minted_secrets_hashed.1 demoSha c3verify (fun _ => true) c3db 0
      "s9" "stok" none none (some "a@a.io") (some "good") _ _ rfl
  · exact C1_minted_secrets_hashed.2.2.1 demoSha c2db 5 (some "Bearer tok")
      (some "edge-1") "n9" "NT" _ _ rfl
  · exact ⟨_, rfl, C1_minted_secrets_hashed.2.2.2 demoSha DB.empty 0 "bu"
      "br" "bt" "tok0" _ rfl⟩

/-- The fold of `dedupeKeepFirst` preserves `Nodup`. -/
theorem dedupeKeepFirst_aux_nodup (xs : List String) :
    ∀ acc : List String, acc.Nodup →
      (xs.foldl (fun acc s => if s ∈ acc then acc else acc ++ [s]) acc).Nodup := by
  induction xs with
  | nil => intro acc h; exact h
  | cons x xs ih =>
    intro acc h
    simp only [List.foldl_cons]
    by_cases hx : x ∈ acc
    · rw [if_pos hx]
      exact ih acc h
    · rw [if_neg hx]
      exact ih _ (by simp [List.nodup_append, h, hx])

/-- `dedupeKeepFirst` produces a duplicate-free list. -/
theorem dedupeKeepFirst_nodup (xs : List String) :
    (dedupeKeepFirst xs).Nodup :=
  dedupeKeepFirst_aux_nodup xs [] List.nodup_nil

/-- `parseStringArray` always yields a duplicate-free list. -/
theorem parseStringArray_nodup (v? : Option JsValue) (l : List String)
    (h : parseStringArray v? = some l) : l.Nodup := by
  unfold parseStringArray at h
  cases v? with
  | none => exact absurd h (by simp)
  | some v =>
    cases v with
    | arr xs =>
      try dsimp only at h
      cases hm : xs.mapM (fun x =>
          match x with | JsValue.str s => some s | _ => none) with
      | none => rw [hm] at h; exact absurd h (by simp)
      | some ss =>
        rw [hm] at h
        try dsimp only at h
        injection h with h2
        rw [← h2]
        exact dedupeKeepFirst_nodup _
    | null => exact absurd h (by simp)
    | bool b => exact absurd h (by simp)
    | num n => exact absurd h (by simp)
    | str s => exact absurd h (by simp)
    | obj fields => exact absurd h (by simp)

/-- With duplicate-free role ids, looking a member row up by its id finds
exactly that row. -/
theorem find?_roleId (db : DB)
    (hids : (db.roles.map (fun r => r.id)).Nodup) (r : RoleRow)
    (hr : r ∈ db.roles) :
    db.roles.find? (fun x => x.id = r.id) = some r := by
  cases hf : db.roles.find? (fun x => x.id = r.id) with
  | none =>
    exact absurd (List.find?_eq_none.mp hf r hr) (by simp)
  | some r2 =>
    have h1 : r2.id = r.id := by simpa using List.find?_some hf
    have h2 : r2 ∈ db.roles := List.mem_of_find?_eq_some hf
    rw [List.inj_on_of_nodup_map hids h2 hr h1]

/-- Replacing one user's roles does not change another user's role
names. -/
theorem roleNames_replace_other (db : DB) (uid : String)
    (rids : List String) (xid : String) (hne : xid ≠ uid) :
    roleNamesOfUser (RoleStore.replaceUserRoles db uid rids) xid =
      roleNamesOfUser db xid := by
  unfold roleNamesOfUser RoleStore.replaceUserRoles
  simp only [List.filter_append]
  have h1 : (rids.map (fun rid => (⟨uid, rid⟩ : UserRoleRow))).filter
      (fun ur => ur.userId = xid) = [] := by
    rw [List.filter_eq_nil_iff]
    intro ur hur
    simp only [List.mem_map] at hur
    obtain ⟨rid, -, rfl⟩ := hur
    simpa using fun hx => hne hx.symm
  have h2 : ((db.userRoles.filter (fun ur => ur.userId ≠ uid)).filter
      (fun ur => ur.userId = xid)) =
      db.userRoles.filter (fun ur => ur.userId = xid) := by
    rw [List.filter_filter]
    apply List.filter_congr
    intro ur _
    by_cases hx : ur.userId = xid
    · simp [hx, hne]
    · simp [hx]
  rw [h1, h2]
  simp

/-- Under the route's length check (with duplicate-free role names in the
table and in the request), every requested name is covered by a resolved
role row. -/
theorem findRolesByNames_covers (db : DB)
    (hnames : (db.roles.map (fun r => r.name)).Nodup) (names : List String)
    (hnodup : names.Nodup)
    (hlen : (RoleStore.findRolesByNames db names).length = names.length)
    (nm : String) (hmem : nm ∈ names) :
    ∃ r ∈ RoleStore.findRolesByNames db names, r.name = nm := by
  by_contra hno
  push_neg at hno
  have hnd : ((RoleStore.findRolesByNames db names).map
      (fun r => r.name)).Nodup :=
    ((List.filter_sublist _).map _).nodup hnames
  have hsub : ((RoleStore.findRolesByNames db names).map (fun r => r.name)) ⊆
      names.erase nm := by
    intro x hx
    simp only [List.mem_map] at hx
    obtain ⟨r, hr, rfl⟩ := hx
    have hxmem : r.name ∈ names := by
      have := (List.mem_filter.mp hr).2
      simpa using this
    have hxne : r.name ≠ nm := fun he => hno r hr he
    exact (List.mem_erase_of_ne hxne).mpr hxmem
  have hle := (hnd.subperm hsub).length_le
  rw [List.length_map, hlen, List.length_erase_of_mem hmem] at hle
  have hpos : 0 < names.length := List.length_pos_of_mem hmem
  omega

/-- After a role replacement, the target user's role names include the name
of every replacement row. -/
theorem replace_gives_role_name (db : DB)
    (hids : (db.roles.map (fun r => r.id)).Nodup) (uid : String)
    (roles : List RoleRow) (hsub : ∀ r ∈ roles, r ∈ db.roles)
    (r : RoleRow) (hr : r ∈ roles) :
    r.name ∈ roleNamesOfUser
      (RoleStore.replaceUserRoles db uid (roles.map (fun x => x.id))) uid := by
  unfold roleNamesOfUser RoleStore.replaceUserRoles
  dsimp only
  rw [List.filter_append, List.filterMap_append]
  apply List.mem_append.mpr
  right
  rw [List.mem_filterMap]
  refine ⟨⟨uid, r.id⟩, ?_, ?_⟩
  · rw [List.mem_filter]
    refine ⟨?_, by simp⟩
    exact List.mem_map.mpr ⟨r.id, List.mem_map.mpr ⟨r, hr, rfl⟩, rfl⟩
  · dsimp only
    rw [find?_roleId db hids r (hsub r hr)]
    rfl

/-- C6: the admin floor.  (a) When the target currently holds `admin`, the
requested set drops it, and no other credentialed admin exists, the request
fails 400 `"cannot remove the last credentialed admin"` with the state
unchanged.  (b) Whatever the request, the route preserves the invariant
that a credentialed admin exists. -/
theorem C6_admin_floor (sha256hex : String → String) (db : DB) (now : Int)
    (authHeader : Option String) (userIdParam : Option String)
    (roleNamesBody : Option JsValue)
    (huids : (db.users.map (fun u => u.id)).Nodup)
    (hrids : (db.roles.map (fun r => r.id)).Nodup)
    (hrnames : (db.roles.map (fun r => r.name)).Nodup) :
    (∀ su uid roleNames user,
      requireAdminSession sha256hex db now authHeader = .ok su →
      userIdParam = some uid → ¬ uid = "" →
      parseStringArray roleNamesBody = some roleNames →
      ¬ roleNames.length = 0 →
      UserStore.findById db uid = some user →
      (RoleStore.findRolesByNames db roleNames).length = roleNames.length →
      "admin" ∈ roleNamesOfUser db user.id →
      "admin" ∉ roleNames →
      UserStore.hasCredentialedAdminExcludingEmail db user.emailNormalized =
        false →
      replaceUserRolesRoute sha256hex db now authHeader userIdParam
        roleNamesBody =
        (.badRequest "cannot remove the last credentialed admin", db)) ∧
    (UserStore.hasCredentialedAdmin db = true →
      ∀ res db', replaceUserRolesRoute sha256hex db now authHeader
        userIdParam roleNamesBody = (res, db') →
      UserStore.hasCredentialedAdmin db' = true) := by
  constructor
  · intro su uid roleNames user hA hparam hne hps hlen0 hfind hlen hadm
      hnadm hno
    unfold replaceUserRolesRoute
    rw [hA]
    try dsimp only
    rw [hparam]
    try dsimp only
    rw [if_neg hne, hps]
    try dsimp only
    rw [if_neg hlen0, hfind]
    try dsimp only
    rw [if_neg (not_ne_iff.mpr hlen)]
    rw [if_pos ⟨⟨hadm, hnadm⟩, hno⟩]
  · intro hcred res db' h
    unfold replaceUserRolesRoute at h
    cases hA : requireAdminSession sha256hex db now authHeader with
    | error e =>
      rw [hA] at h
      try dsimp only at h
      injection h with h1 h2
      subst h2
      exact hcred
    | ok su =>
      rw [hA] at h
      try dsimp only at h
      cases hparam : userIdParam with
      | none =>
        rw [hparam] at h
        injection h with h1 h2
        subst h2
        exact hcred
      | some uid =>
        rw [hparam] at h
        try dsimp only at h
        by_cases huid0 : uid = ""
        · rw [if_pos huid0] at h
          injection h with h1 h2
          subst h2
          exact hcred
        · rw [if_neg huid0] at h
          cases hps : parseStringArray roleNamesBody with
          | none =>
            rw [hps] at h
            injection h with h1 h2
            subst h2
            exact hcred
          | some roleNames =>
            rw [hps] at h
            try dsimp only at h
            by_cases hlen0 : roleNames.length = 0
            · rw [if_pos hlen0] at h
              injection h with h1 h2
              subst h2
              exact hcred
            · rw [if_neg hlen0] at h
              cases hfind : UserStore.findById db uid with
              | none =>
                rw [hfind] at h
                injection h with h1 h2
                subst h2
                exact hcred
              | some user =>
                rw [hfind] at h
                try dsimp only at h
                by_cases hlen : (RoleStore.findRolesByNames db
                    roleNames).length ≠ roleNames.length
                · rw [if_pos hlen] at h
                  injection h with h1 h2
                  subst h2
                  exact hcred
                · rw [if_neg hlen] at h
                  by_cases hguard : ("admin" ∈ roleNamesOfUser db user.id ∧
                      "admin" ∉ roleNames) ∧
                      UserStore.hasCredentialedAdminExcludingEmail db
                        user.emailNormalized = false
                  · rw [if_pos hguard] at h
                    injection h with h1 h2
                    subst h2
                    exact hcred
                  · rw [if_neg hguard] at h
                    have hdb1 : db' = RoleStore.replaceUserRoles db user.id
                        ((RoleStore.findRolesByNames db roleNames).map
                          (fun r => r.id)) := by
                      cases hupd : UserStore.findById
                          (RoleStore.replaceUserRoles db user.id
                            ((RoleStore.findRolesByNames db roleNames).map
                              (fun r => r.id))) user.id with
                      | some updated =>
                        rw [hupd] at h
                        injection h with h1 h2
                        exact h2.symm
                      | none =>
                        rw [hupd] at h
                        injection h with h1 h2
                        exact h2.symm
                    subst hdb1
                    have huser : user ∈ db.users :=
                      List.mem_of_find?_eq_some hfind
                    rw [UserStore.hasCredentialedAdmin,
                      List.any_eq_true] at hcred
                    obtain ⟨w, hw, hwp⟩ := hcred
                    simp only [decide_eq_true_eq] at hwp
                    obtain ⟨hwcred, hwadm⟩ := hwp
                    rw [UserStore.hasCredentialedAdmin, List.any_eq_true]
                    by_cases hwid : w.id = user.id
                    · have hww : w = user :=
                        List.inj_on_of_nodup_map huids hw huser hwid
                      subst hww
                      by_cases hmem : "admin" ∈ roleNames
                      · obtain ⟨r, hrm, hrname⟩ := findRolesByNames_covers db
                          hrnames roleNames
                          (parseStringArray_nodup roleNamesBody roleNames hps)
                          (not_ne_iff.mp hlen) "admin" hmem
                        refine ⟨w, ?_, ?_⟩
                        · simpa [RoleStore.replaceUserRoles] using hw
                        · have hnm : r.name ∈ roleNamesOfUser
                              (RoleStore.replaceUserRoles db w.id
                                ((RoleStore.findRolesByNames db
                                  roleNames).map (fun x => x.id))) w.id :=
                            replace_gives_role_name db hrids w.id
                              (RoleStore.findRolesByNames db roleNames)
                              (fun x hx => List.mem_of_mem_filter hx) r hrm
                          rw [hrname] at hnm
                          simp [hwcred, hnm]
                      · have hother :
                            UserStore.hasCredentialedAdminExcludingEmail db
                              w.emailNormalized = true := by
                          rcases Bool.eq_false_or_eq_true
                            (UserStore.hasCredentialedAdminExcludingEmail db
                              w.emailNormalized) with hh | hh
                          · exact hh
                          · exact absurd ⟨⟨hwadm, hmem⟩, hh⟩ hguard
                        rw [UserStore.hasCredentialedAdminExcludingEmail,
                          List.any_eq_true] at hother
                        obtain ⟨u2, hu2, hu2p⟩ := hother
                        simp only [decide_eq_true_eq] at hu2p
                        obtain ⟨hu2em, hu2cred, hu2adm⟩ := hu2p
                        have hneid : u2.id ≠ w.id := by
                          intro he
                          exact hu2em (congrArg UserRow.emailNormalized
                            (List.inj_on_of_nodup_map huids hu2 huser he))
                        refine ⟨u2, ?_, ?_⟩
                        · simpa [RoleStore.replaceUserRoles] using hu2
                        · rw [roleNames_replace_other db w.id _ u2.id hneid]
                          simp [hu2cred, hu2adm]
                    · refine ⟨w, ?_, ?_⟩
                      · simpa [RoleStore.replaceUserRoles] using hw
                      · rw [roleNames_replace_other db user.id _ w.id hwid]
                        simp [hwcred, hwadm]

/-- Concrete single-admin database for the C6 witness: `u1` is the only
credentialed admin, with an active session and both seed roles present. -/
def c6db : DB :=
  { DB.empty with
    users := [c2user],
    sessions := [c2session],
    roles := [⟨"ra", "admin", none⟩, ⟨"ru", "user", none⟩],
    userRoles := [⟨"u1", "ra"⟩] }

/-- Witness for C6 at a concrete input: demoting the only credentialed
admin to `["user"]` is refused with 400 and the state is unchanged. -/
theorem C6_admin_floor_witness :
    replaceUserRolesRoute demoSha c6db 5 (some "Bearer tok") (some "u1")
      (some (.arr [.str "user"])) =
      (.badRequest "cannot remove the last credentialed admin", c6db) ∧
    UserStore.hasCredentialedAdmin c6db = true := by
  have h := C6_admin_floor demoSha c6db 5 (some "Bearer tok") (some "u1")
    (some (.arr [.str "user"])) (by decide) (by decide) (by decide)
  refine ⟨?_, by decide⟩
  exact h.1 (c2session, c2user) "u1" ["user"] c2user rfl rfl (by decide)
    (by decide) (by decide) (by decide) (by decide) (by decide) (by decide)
    (by decide)
